import Mathlib

/-!
Shallow embedding of the Tongits rules engine of `src/server.mjs` (the socket
server together with its inlined card utilities), and proofs of the spec
claims about it.

Modelling conventions, used consistently below:
* JS card objects are the value type `Card`; the suit and rank strings are the
  finite inductive types `Suit` and `Rank`.
* JS array index accesses that can yield `undefined` are embedded with
  `Option`: the discard pile is a `List (Option Card)` because an
  out-of-range `splice` pushes `undefined` onto it, and the meld validator
  runs on `List (Option Card)` because the source applies it to possibly
  `undefined` entries, rejecting them through its truthiness guards.
* `Math.random()` draws are supplied as oracle lists of naturals; the shuffle
  uses entry `t` reduced mod the live range, so every permutation is
  realisable by some oracle.
* `Array.prototype.sort` with a consistent comparator is a stable sort; it is
  embedded as `List.insertionSort`, which is stable in the same sense.
* JS compares hand entries by object identity in `indexOf`/`findIndex`; hands
  dealt from a standard deck never hold two structurally equal cards, so the
  structural `List.erase` / `List.findIdx` used here agree with it.
-/

namespace Tongits

/-- Suits of a card, after the `suits` array of `createDeck`. -/
inductive Suit
  | hearts
  | diamonds
  | clubs
  | spades
deriving DecidableEq, Repr

/-- Ranks of a card, after the `ranks` array of `createDeck`. -/
inductive Rank
  | A
  | r2
  | r3
  | r4
  | r5
  | r6
  | r7
  | r8
  | r9
  | r10
  | J
  | Q
  | K
deriving DecidableEq, Repr

/-- A card value: the `{suit, rank}` object of `createCard`. -/
structure Card where
  suit : Suit
  rank : Rank
deriving DecidableEq, Repr

instance : Inhabited Card := ⟨⟨Suit.hearts, Rank.A⟩⟩

/-- Embeds `rankToNumber`: the index of the rank in the fixed order
A,2,...,10,J,Q,K (so A is low and there is no wraparound). -/
def rankToNumber : Rank → Nat
  | Rank.A => 0
  | Rank.r2 => 1
  | Rank.r3 => 2
  | Rank.r4 => 3
  | Rank.r5 => 4
  | Rank.r6 => 5
  | Rank.r7 => 6
  | Rank.r8 => 7
  | Rank.r9 => 8
  | Rank.r10 => 9
  | Rank.J => 10
  | Rank.Q => 11
  | Rank.K => 12

/-- Embeds `calculateCardPoints`: A is 1, J/Q/K are 10, and a numeric rank
parses to its face value. -/
def calculateCardPoints (card : Card) : Nat :=
  match card.rank with
  | Rank.A => 1
  | Rank.J => 10
  | Rank.Q => 10
  | Rank.K => 10
  | Rank.r2 => 2
  | Rank.r3 => 3
  | Rank.r4 => 4
  | Rank.r5 => 5
  | Rank.r6 => 6
  | Rank.r7 => 7
  | Rank.r8 => 8
  | Rank.r9 => 9
  | Rank.r10 => 10

/-- The `suits` array of `createDeck`, in source order. -/
def suitsList : List Suit := [Suit.hearts, Suit.diamonds, Suit.clubs, Suit.spades]

/-- The `ranks` array of `createDeck`, in source order. -/
def ranksList : List Rank :=
  [Rank.A, Rank.r2, Rank.r3, Rank.r4, Rank.r5, Rank.r6, Rank.r7, Rank.r8,
   Rank.r9, Rank.r10, Rank.J, Rank.Q, Rank.K]

/-- The 52 cards in the nested-loop construction order of `createDeck`,
before shuffling. -/
def orderedDeck : List Card := suitsList.flatMap fun s => ranksList.map fun r => ⟨s, r⟩

/-- One swap `[arr[i], arr[j]] = [arr[j], arr[i]]`; in the shuffle loops both
positions are always in range, and an out-of-range read leaves the list
unchanged here. -/
def swapIdx (l : List Card) (i j : Nat) : List Card :=
  match l[i]?, l[j]? with
  | some a, some b => (l.set i b).set j a
  | _, _ => l

/-- The Fisher-Yates loop of `shuffleDeck` (and of `handleShuffle`): `i` runs
from `length - 1` down to `1`, swapping position `i` with
`Math.floor(Math.random() * (i + 1))`; the random draw of iteration `t` is
supplied as `rand[t]` and reduced mod `i + 1`. -/
def fyLoop (rand : List Nat) : Nat → List Card → Nat → List Card
  | _, l, 0 => l
  | t, l, i + 1 => fyLoop rand (t + 1) (swapIdx l (i + 1) (rand.getD t 0 % (i + 2))) i

/-- Embeds `shuffleDeck`, with the `Math.random()` draws as the oracle `rand`. -/
def shuffleDeck (rand : List Nat) (deck : List Card) : List Card :=
  fyLoop rand 0 deck (deck.length - 1)

/-- Embeds `createDeck`: the 52 suit-rank combinations, shuffled. -/
def createDeck (rand : List Nat) : List Card := shuffleDeck rand orderedDeck

/-- One inner-loop step of `dealCards` for hand `j`: pop the top of the deck
(the array end) into hand `j`, silently doing nothing when the deck is
exhausted. -/
def dealOne (st : List Card × List (List Card)) (j : Nat) : List Card × List (List Card) :=
  match st.1.getLast? with
  | none => st
  | some c => (st.1.dropLast, st.2.set j (st.2.getD j [] ++ [c]))

/-- Embeds `dealCards`: `cardsPerPlayer` round-robin rounds, one card per
player per round; returns the hands and the remaining deck. -/
def dealCards (deck : List Card) (numPlayers cardsPerPlayer : Nat) :
    List (List Card) × List Card :=
  let st := (List.range cardsPerPlayer).foldl
    (fun st _ => (List.range numPlayers).foldl dealOne st)
    (deck, List.replicate numPlayers ([] : List Card))
  (st.2, st.1)

/-- The `every` callback shared by `isThreeOfAKind` and `isFourOfAKind`:
`card && card.rank === cards[0]?.rank`; an `undefined` entry, or an
`undefined` or missing first card, makes it false. -/
def sameRankAsHead (cards : List (Option Card)) (c : Option Card) : Bool :=
  match c, cards.head? with
  | some card, some (some c0) => card.rank == c0.rank
  | _, _ => false

/-- Embeds `isThreeOfAKind`. -/
def isThreeOfAKind (cards : List (Option Card)) : Bool :=
  cards.length == 3 && cards.all (sameRankAsHead cards)

/-- Embeds `isFourOfAKind`. -/
def isFourOfAKind (cards : List (Option Card)) : Bool :=
  cards.length == 4 && cards.all (sameRankAsHead cards)

/-- The comparator `(a, b) => rankToNumber(a.rank) - rankToNumber(b.rank)`. -/
def rankLe (a b : Card) : Prop := rankToNumber a.rank ≤ rankToNumber b.rank

instance : DecidableRel rankLe := fun a b =>
  inferInstanceAs (Decidable (rankToNumber a.rank ≤ rankToNumber b.rank))

instance : IsTotal Card rankLe := ⟨fun _ _ => Nat.le_total _ _⟩

instance : IsTrans Card rankLe := ⟨fun _ _ _ => Nat.le_trans⟩

/-- The consecutive check of `isStraightFlush` on the sorted cards: every
rank is the preceding rank plus one. -/
def consecutiveRanks : List Card → Bool
  | a :: b :: rest =>
    rankToNumber b.rank == rankToNumber a.rank + 1 && consecutiveRanks (b :: rest)
  | _ => true

/-- Embeds `isStraightFlush`: at least 3 entries, all defined; the cards
sorted by rank are all of the suit of the first sorted card and strictly
consecutive in rank. -/
def isStraightFlush (cards : List (Option Card)) : Bool :=
  if cards.length < 3 || !cards.all (·.isSome) then false
  else
    let sorted := (cards.filterMap id).insertionSort rankLe
    let sameSuit := sorted.all fun c =>
      match sorted.head? with
      | some c0 => c.suit == c0.suit
      | none => false
    sameSuit && consecutiveRanks sorted

/-- Embeds `isValidMeld` on raw entries (possibly `undefined`). -/
def isValidMeldO (cards : List (Option Card)) : Bool :=
  isThreeOfAKind cards || isFourOfAKind cards || isStraightFlush cards

/-- `isValidMeld` applied to genuine cards. -/
def isValidMeld (cards : List Card) : Bool := isValidMeldO (cards.map some)

/-- The double loop of `canFormMeldWithCard` over the same-suit cards: the
first `i < j` pair (outer index first) completing a valid meld with the
candidate card. -/
def firstMeldPair (card : Card) : List Card → Option (Card × Card)
  | [] => none
  | c :: rest =>
    match rest.find? (fun d => isValidMeld [card, c, d]) with
    | some d => some (c, d)
    | none => firstMeldPair card rest

/-- Embeds `canFormMeldWithCard`: a rank-pair search (the first two hand
indices holding the rank of the candidate) and then a same-suit run search.
Returns the `canMeld` flag and the `indices` list. -/
def canFormMeldWithCard (card : Card) (playerHand : List Card) : Bool × List Nat :=
  let sameRankCards := playerHand.filter fun c => c.rank == card.rank
  if 2 ≤ sameRankCards.length then
    (true, ((playerHand.enum.filter fun p => p.2.rank == card.rank).map (·.1)).take 2)
  else
    let sameSuitCards := playerHand.filter fun c => c.suit == card.suit
    match firstMeldPair card sameSuitCards with
    | some (x, y) =>
      (true, [playerHand.findIdx (· == x), playerHand.findIdx (· == y)])
    | none => (false, [])

/-- The nested `i < j < k` loops of the set search of `findAndRemoveMeld`,
rendered as the first rank-equal triple in the loop iteration order
(lexicographic by `i`, then `j`, then `k`). -/
def findSetTriple (cards : List Card) : Option (Nat × Nat × Nat) :=
  ((List.range cards.length).flatMap fun i =>
    (List.range' (i + 1) (cards.length - (i + 1))).flatMap fun j =>
      (List.range' (j + 1) (cards.length - (j + 1))).map fun k => (i, j, k)).find?
    fun t =>
      (cards.getD t.1 default).rank == (cards.getD t.2.1 default).rank &&
      (cards.getD t.2.1 default).rank == (cards.getD t.2.2 default).rank

/-- The left-to-right window scan of the run search of `findAndRemoveMeld`
over the rank-sorted copy of the hand. -/
def findRunWindow : List Card → Option (Card × Card × Card)
  | a :: b :: c :: rest =>
    if a.suit == b.suit && b.suit == c.suit &&
        rankToNumber b.rank == rankToNumber a.rank + 1 &&
        rankToNumber c.rank == rankToNumber b.rank + 1 then
      some (a, b, c)
    else findRunWindow (b :: c :: rest)
  | _ => none

/-- Embeds `findAndRemoveMeld`. The source mutates `cards` in place and
returns the meld; here the result is the pair (meld, remaining cards). A set
meld is removed positionally (splice at `k`, then `j`, then `i`); a run meld
is removed through `indexOf`, i.e. erasing the first equal occurrence of
each of its three cards, last card first. -/
def findAndRemoveMeld (cards : List Card) : Option (List Card × List Card) :=
  match findSetTriple cards with
  | some (i, j, k) =>
    some ([cards.getD i default, cards.getD j default, cards.getD k default],
      ((cards.eraseIdx k).eraseIdx j).eraseIdx i)
  | none =>
    match findRunWindow (cards.insertionSort rankLe) with
    | some (a, b, c) => some ([a, b, c], ((cards.erase c).erase b).erase a)
    | none => none

/-- The `while` loop of `calculateHandPoints`: extract melds until none is
found, appending each to `allMelds` (which the source never reads again),
then sum the points of the leftover cards. Each extraction removes three
cards, so `fuel := cards.length` never runs out before the loop exit
condition holds; the fuel-exhausted fallback returns the same sum and is
unreachable. -/
def scoreLoop : Nat → List Card → List (List Card) → Nat
  | 0, cards, _ => (cards.map calculateCardPoints).sum
  | fuel + 1, cards, allMelds =>
    match findAndRemoveMeld cards with
    | none => (cards.map calculateCardPoints).sum
    | some (meld, rest) => scoreLoop fuel rest (allMelds ++ [meld])

/-- Embeds `calculateHandPoints`; the source default for `secretMelds` is
`[]`, passed explicitly by callers here. -/
def calculateHandPoints (hand : List Card) (secretMelds : List (List Card)) : Nat :=
  scoreLoop hand.length hand secretMelds

/-- Modelled from the wording of the spec (section 4.3): the point value of a
leftover card, Ace = 1, ranks 2-10 = face value, J/Q/K = 10. -/
def specCardPoints (c : Card) : Nat :=
  match c.rank with
  | Rank.A => 1
  | Rank.r2 => 2
  | Rank.r3 => 3
  | Rank.r4 => 4
  | Rank.r5 => 5
  | Rank.r6 => 6
  | Rank.r7 => 7
  | Rank.r8 => 8
  | Rank.r9 => 9
  | Rank.r10 => 10
  | Rank.J => 10
  | Rank.Q => 10
  | Rank.K => 10

/-- Modelled from the wording of the spec (section 4.3): the working hand
after repeatedly removing the first extractable meld until none remains. -/
def specResidual : Nat → List Card → List Card
  | 0, cards => cards
  | fuel + 1, cards =>
    match findAndRemoveMeld cards with
    | none => cards
    | some (_, rest) => specResidual fuel rest

/-- Modelled from the wording of the spec (section 4.3): sum the point value
of every remaining, non-extractable card. -/
def specHandPoints (hand : List Card) : Nat :=
  ((specResidual hand.length hand).map specCardPoints).sum

/-- A seated player record, after the object pushed in the join handler.
Socket ids are modelled as naturals; the three seats of a session get the
distinct ids 0, 1, 2. -/
structure Player where
  id : Nat
  playerNumber : Nat
  hand : List Card
  exposedMelds : List (List Card)
  secretMelds : List (List Card)
  score : Nat
  consecutiveWins : Nat
  isSapawed : Bool
  points : Nat
  turnsPlayed : Nat
  isBot : Bool
deriving DecidableEq, Repr

instance : Inhabited Player :=
  ⟨{ id := 0, playerNumber := 0, hand := [], exposedMelds := [], secretMelds := [],
     score := 0, consecutiveWins := 0, isSapawed := false, points := 0,
     turnsPlayed := 0, isBot := false }⟩

/-- The session record (the `game` object). The `winner` field holds a JS
reference to a player object; it is embedded as the value of that player at
assignment time (the source only ever writes it after the final player
updates of the round). -/
structure GameState where
  players : List Player
  deck : List Card
  discardPile : List (Option Card)
  currentPlayerIndex : Nat
  hasDrawnThisTurn : Bool
  round : Nat
  entryFee : Nat
  gameEnded : Bool
  winner : Option Player
  selectedCardIndices : List Nat
  gameStarted : Bool
  firstPlayerHasPlayed : Bool
deriving DecidableEq, Repr

/-- The session constant `PLAYERS_REQUIRED`. -/
def PLAYERS_REQUIRED : Nat := 3

/-- The access `game.players[game.currentPlayerIndex]`; a started session
always holds the current seat, so the default is never read in play. -/
def currentPlayer (s : GameState) : Player := s.players.getD s.currentPlayerIndex default

/-- The action vocabulary of `handlePlayerAction`. The `shuffle`, `nextGame`
and `resetGame` payloads carry the `Math.random()` oracle used by the
shuffles those handlers perform. -/
inductive Action
  | draw (fromDeck : Bool) (meldIndices : List Nat)
  | discard (cardIndex : Nat)
  | meld (cardIndices : List Nat)
  | sapaw (targetPlayerIndex targetMeldIndex : Nat) (cardIndices : List Nat)
  | callDraw
  | updateSelectedIndices (indices : List Nat)
  | autoSort
  | shuffle (rand : List Nat)
  | nextGame (rand : List Nat)
  | resetGame (rand : List Nat)
deriving DecidableEq, Repr

/-- The indexed `players.forEach((player, index) => ...)` traversal used by
`startGame` and `handleNextGame`. -/
def mapWithIndex (f : Nat → Player → Player) : Nat → List Player → List Player
  | _, [] => []
  | i, p :: rest => f i p :: mapWithIndex f (i + 1) rest

/-- The removal pattern `cardIndices.sort((a, b) => b - a).forEach(i =>
hand.splice(i, 1))`: erase the named positions in descending order (an
out-of-range splice removes nothing). -/
def removeIndicesDesc (l : List Card) (idxs : List Nat) : List Card :=
  (idxs.insertionSort (· ≥ ·)).foldl (fun h i => h.eraseIdx i) l

/-- The cards named by `indices.map(i => hand[i])`, as raw JS values: an
out-of-range index contributes `undefined`. -/
def pickCards (hand : List Card) (idxs : List Nat) : List (Option Card) :=
  idxs.map fun i => hand[i]?

/-- Embeds `handleDraw`. A pile top left `undefined` by an out-of-range
discard would make the source throw inside `canFormMeldWithCard`; that
branch never runs in play (the pile stays fully defined) and leaves the
state unchanged here. -/
def handleDraw (s : GameState) (fromDeck : Bool) (meldIndices : List Nat) : GameState :=
  if s.hasDrawnThisTurn then s
  else
    let cp := currentPlayer s
    if !fromDeck && !s.discardPile.isEmpty then
      match s.discardPile.getLast? with
      | some (some topCard) =>
        if !(canFormMeldWithCard topCard cp.hand).1 then s
        else
          let pile' := s.discardPile.dropLast
          let meldCards := pickCards cp.hand meldIndices ++ [some topCard]
          if !meldIndices.isEmpty && isValidMeldO meldCards then
            let cp' := { cp with
              hand := removeIndicesDesc cp.hand meldIndices,
              exposedMelds := cp.exposedMelds ++ [meldCards.filterMap id] }
            { s with players := s.players.set s.currentPlayerIndex cp',
                     discardPile := pile',
                     selectedCardIndices := [],
                     hasDrawnThisTurn := true }
          else
            let cp' := { cp with hand := cp.hand ++ [topCard] }
            { s with players := s.players.set s.currentPlayerIndex cp',
                     discardPile := pile',
                     hasDrawnThisTurn := true }
      | _ => s
    else if !s.deck.isEmpty then
      match s.deck.getLast? with
      | some c =>
        let cp' := { cp with hand := cp.hand ++ [c] }
        { s with players := s.players.set s.currentPlayerIndex cp',
                 deck := s.deck.dropLast,
                 hasDrawnThisTurn := true }
      | none => s
    else s

/-- Embeds `handleDiscard`. `hand.splice(cardIndex, 1)[0]` is `undefined`
when the index is out of range (nothing is removed and `undefined` is pushed
onto the pile). -/
def handleDiscard (s : GameState) (cardIndex : Nat) : GameState :=
  if !s.hasDrawnThisTurn && s.currentPlayerIndex != 0 then s
  else
    let cp := currentPlayer s
    let discarded : Option Card := cp.hand[cardIndex]?
    let cp' := { cp with hand := cp.hand.eraseIdx cardIndex,
                         turnsPlayed := cp.turnsPlayed + 1 }
    { s with players := s.players.set s.currentPlayerIndex cp',
             discardPile := s.discardPile ++ [discarded],
             currentPlayerIndex := (s.currentPlayerIndex + 1) % s.players.length,
             hasDrawnThisTurn := false,
             selectedCardIndices := [] }

/-- The per-player update of the `forEach` in `handleTongits`: the player
whose id matches the current player wins with score 0 and an incremented
streak; every other player is scored on their current hand with streak
reset. -/
def tongitsUpd (cpid : Nat) (p : Player) : Player :=
  if p.id == cpid then
    { p with score := 0, consecutiveWins := p.consecutiveWins + 1 }
  else
    { p with score := calculateHandPoints p.hand [], consecutiveWins := 0 }

/-- Embeds `handleTongits`, called by `handleMeld` after its own updates. -/
def handleTongits (s : GameState) : GameState :=
  let players' := s.players.map (tongitsUpd (currentPlayer s).id)
  { s with players := players',
           winner := players'.getD s.currentPlayerIndex default,
           gameEnded := true }

/-- Embeds `handleMeld`. -/
def handleMeld (s : GameState) (cardIndices : List Nat) : GameState :=
  let cp := currentPlayer s
  let meldedCards := pickCards cp.hand cardIndices
  if !isValidMeldO meldedCards then s
  else
    let cp' := { cp with
      exposedMelds := cp.exposedMelds ++ [meldedCards.filterMap id],
      hand := removeIndicesDesc cp.hand cardIndices }
    let s' := { s with players := s.players.set s.currentPlayerIndex cp',
                       selectedCardIndices := [] }
    if cp'.hand.isEmpty then handleTongits s' else s'

/-- Embeds `handleSapaw`. An out-of-range target player or meld index makes
the source throw on the spread of `undefined`; those dead branches leave the
state unchanged here. The sequential re-reads mirror the in-place mutation
order of the source, which matters when a player extends their own meld. -/
def handleSapaw (s : GameState) (targetPlayerIndex targetMeldIndex : Nat)
    (cardIndices : List Nat) : GameState :=
  match s.players[targetPlayerIndex]? with
  | none => s
  | some tp =>
    match tp.exposedMelds[targetMeldIndex]? with
    | none => s
    | some base =>
      let cp := currentPlayer s
      let sapawCards := pickCards cp.hand cardIndices
      let targetMeld := base.map some ++ sapawCards
      if !isValidMeldO targetMeld then s
      else
        let players1 := s.players.set targetPlayerIndex
          { tp with exposedMelds := tp.exposedMelds.set targetMeldIndex (targetMeld.filterMap id) }
        let cp1 := players1.getD s.currentPlayerIndex default
        let players2 := players1.set s.currentPlayerIndex
          { cp1 with hand := removeIndicesDesc cp1.hand cardIndices }
        let tp2 := players2.getD targetPlayerIndex default
        let players3 := players2.set targetPlayerIndex { tp2 with isSapawed := true }
        { s with players := players3, selectedCardIndices := [] }

/-- Embeds `handleCallDraw`: score every hand (no secret melds), pick the
reduce-minimum (strictly smaller replaces, so the first minimum wins), then
update scores and streaks by id. The source would throw on an empty player
list; sessions never are. -/
def handleCallDraw (s : GameState) : GameState :=
  let scores := s.players.map fun p => (p.id, calculateHandPoints p.hand [])
  match scores with
  | [] => s
  | first :: restScores =>
    let winner := restScores.foldl (fun min p => if p.2 < min.2 then p else min) first
    let players' := s.players.map fun p =>
      { p with
        score := (match scores.find? (fun sc => sc.1 == p.id) with
          | some sc => sc.2
          | none => p.score),
        consecutiveWins := if p.id == winner.1 then p.consecutiveWins + 1 else 0 }
    { s with players := players',
             winner := players'.find? (fun p => p.id == winner.1),
             gameEnded := true }

/-- The key of `a.suit.localeCompare(b.suit)` over the suit name strings,
which orders them clubs < diamonds < hearts < spades. -/
def suitSortKey : Suit → Nat
  | Suit.clubs => 0
  | Suit.diamonds => 1
  | Suit.hearts => 2
  | Suit.spades => 3

/-- The key of `a.rank.localeCompare(b.rank)` over the rank name strings,
code-unit order: "10" < "2" < ... < "9" < "A" < "J" < "K" < "Q". -/
def rankSortKey : Rank → Nat
  | Rank.r10 => 0
  | Rank.r2 => 1
  | Rank.r3 => 2
  | Rank.r4 => 3
  | Rank.r5 => 4
  | Rank.r6 => 5
  | Rank.r7 => 6
  | Rank.r8 => 7
  | Rank.r9 => 8
  | Rank.A => 9
  | Rank.J => 10
  | Rank.K => 11
  | Rank.Q => 12

/-- The comparator of `handleAutoSort`: by suit name, then by rank name. -/
def autoSortLe (a b : Card) : Prop :=
  suitSortKey a.suit < suitSortKey b.suit ∨
    (suitSortKey a.suit = suitSortKey b.suit ∧ rankSortKey a.rank ≤ rankSortKey b.rank)

instance : DecidableRel autoSortLe := fun _ _ =>
  inferInstanceAs (Decidable (_ ∨ _))

/-- Embeds `handleAutoSort` for the acting seat. -/
def handleAutoSort (s : GameState) (playerIndex : Nat) : GameState :=
  match s.players[playerIndex]? with
  | none => s
  | some p =>
    let players' := s.players.set playerIndex { p with hand := p.hand.insertionSort autoSortLe }
    { s with players := players' }

/-- Embeds `handleShuffle` for the acting seat: the in-place Fisher-Yates
loop over the hand, with the random draws as the oracle `rand`. -/
def handleShuffle (s : GameState) (playerIndex : Nat) (rand : List Nat) : GameState :=
  match s.players[playerIndex]? with
  | none => s
  | some p =>
    let players' := s.players.set playerIndex
      { p with hand := fyLoop rand 0 p.hand (p.hand.length - 1) }
    { s with players := players' }

/-- Embeds `handleNextGame`: next round number, fresh shuffled deck, fresh
deal, seat 0 pre-armed with the extra card and `hasDrawnThisTurn = true`;
per-player round fields reset (streaks kept, `winner` kept). -/
def handleNextGame (s : GameState) (rand : List Nat) : GameState :=
  let deck0 := createDeck rand
  let dealt := dealCards deck0 PLAYERS_REQUIRED 12
  let hands := dealt.1
  let deck1 := dealt.2
  let deck2 := if s.players.isEmpty then deck1 else deck1.dropLast
  let players' := mapWithIndex (fun i p =>
    { p with
      hand := hands.getD i [] ++ (if i == 0 then deck1.getLast?.toList else []),
      exposedMelds := [],
      secretMelds := [],
      score := 0,
      isSapawed := false,
      points := 0,
      turnsPlayed := 0 }) 0 s.players
  { s with round := s.round + 1,
           deck := deck2,
           discardPile := [],
           currentPlayerIndex := 0,
           hasDrawnThisTurn := true,
           gameEnded := false,
           selectedCardIndices := [],
           firstPlayerHasPlayed := false,
           players := players' }

/-- Embeds `handleResetGame`: round back to 1 and streaks zeroed, then the
`handleNextGame` reset (which bumps the round to 2, as in the source). -/
def handleResetGame (s : GameState) (rand : List Nat) : GameState :=
  let s' := { s with round := 1,
                     players := s.players.map fun p => { p with consecutiveWins := 0 } }
  handleNextGame s' rand

/-- True exactly for draw actions (the `action.type === 'draw'` test). -/
def isDrawAction : Action → Bool
  | Action.draw _ _ => true
  | _ => false

/-- Embeds `handlePlayerAction`: the opening-turn guard refusing a draw by
seat 0 before its first discard, then the dispatch; a discard by seat 0
flips `firstPlayerHasPlayed`. -/
def handlePlayerAction (s : GameState) (action : Action) (playerIndex : Nat) : GameState :=
  if playerIndex == 0 && !s.firstPlayerHasPlayed && isDrawAction action then s
  else
    match action with
    | Action.draw fromDeck meldIndices => handleDraw s fromDeck meldIndices
    | Action.discard cardIndex =>
      let s' := handleDiscard s cardIndex
      if playerIndex == 0 && !s'.firstPlayerHasPlayed then
        { s' with firstPlayerHasPlayed := true }
      else s'
    | Action.meld cardIndices => handleMeld s cardIndices
    | Action.sapaw tp tm cardIndices => handleSapaw s tp tm cardIndices
    | Action.callDraw => handleCallDraw s
    | Action.updateSelectedIndices indices => { s with selectedCardIndices := indices }
    | Action.autoSort => handleAutoSort s playerIndex
    | Action.shuffle rand => handleShuffle s playerIndex rand
    | Action.nextGame rand => handleNextGame s rand
    | Action.resetGame rand => handleResetGame s rand

/-- The per-action entry point: the socket handler drops an action whose
sender is not the current seat, then dispatches to `handlePlayerAction`. -/
def step (s : GameState) (actorIndex : Nat) (action : Action) : GameState :=
  if actorIndex != s.currentPlayerIndex then s else handlePlayerAction s action actorIndex

/-- Embeds `startGame`: fresh shuffled deck, 12 cards to each of the 3
seats, the 13th card popped to seat 0, seat 0 pre-armed
(`hasDrawnThisTurn = true`). -/
def startGame (s : GameState) (rand : List Nat) : GameState :=
  if s.players.length != PLAYERS_REQUIRED then s
  else
    let deck0 := createDeck rand
    let dealt := dealCards deck0 PLAYERS_REQUIRED 12
    let hands := dealt.1
    let deck1 := dealt.2
    let players' := mapWithIndex (fun i p =>
      { p with
        hand := hands.getD i [] ++ (if i == 0 then deck1.getLast?.toList else []),
        exposedMelds := [] }) 0 s.players
    { s with deck := deck1.dropLast,
             discardPile := [],
             hasDrawnThisTurn := true,
             selectedCardIndices := [],
             firstPlayerHasPlayed := false,
             players := players' }

/-- A seat as created by the join handler (empty hand, zeroed counters). -/
def freshPlayer (pid num : Nat) : Player :=
  { id := pid, playerNumber := num, hand := [], exposedMelds := [], secretMelds := [],
    score := 0, consecutiveWins := 0, isSapawed := false, points := 0,
    turnsPlayed := 0, isBot := false }

/-- A session just filled by three joins, as created by the join handler,
ready for `startGame`. -/
def freshSession : GameState :=
  { players := [freshPlayer 0 1, freshPlayer 1 2, freshPlayer 2 3],
    deck := [], discardPile := [], currentPlayerIndex := 0, hasDrawnThisTurn := false,
    round := 1, entryFee := 500, gameEnded := false, winner := none,
    selectedCardIndices := [], gameStarted := true, firstPlayerHasPlayed := false }

/-- The multiset of cards a player holds: hand, exposed melds, secret melds. -/
def playerCards (p : Player) : Multiset Card :=
  Multiset.ofList p.hand
    + (p.exposedMelds.map fun m => Multiset.ofList m).sum
    + (p.secretMelds.map fun m => Multiset.ofList m).sum

/-- The multiset union of every card zone of a session: deck, defined
discard-pile entries, and every card of every player. -/
def allCards (s : GameState) : Multiset Card :=
  Multiset.ofList s.deck
    + Multiset.ofList (s.discardPile.filterMap id)
    + (s.players.map playerCards).sum

/-- The full 52-card deck as a multiset. -/
def fullDeck : Multiset Card := Multiset.ofList orderedDeck

/-- The multiset of all cards held across a list of hands. -/
def handsSum (hs : List (List Card)) : Multiset Card :=
  (hs.map fun h => Multiset.ofList h).sum

/-- The conservation invariant of claim C1, with the structural facts the
induction maintains: a started 3-seat session, current seat in range, a
fully defined discard pile, and the card zones summing to the 52-card deck. -/
def Conserved (s : GameState) : Prop :=
  s.players.length = 3 ∧ s.currentPlayerIndex < 3 ∧
    (∀ c ∈ s.discardPile, c.isSome = true) ∧ allCards s = fullDeck

/-- The legality side conditions of claim C1 for one submitted action: the
sender is the current seat; a discard index is in bounds; meld, sapaw and
draw card indices are distinct and in bounds (and a sapaw target names an
existing exposed meld); the round-lifecycle resets are not part of the
vocabulary the claim quantifies over. -/
def LegalAction (s : GameState) (actor : Nat) (a : Action) : Prop :=
  actor = s.currentPlayerIndex ∧
    match a with
    | Action.draw _ mi => mi.Nodup ∧ ∀ i ∈ mi, i < (currentPlayer s).hand.length
    | Action.discard i => i < (currentPlayer s).hand.length
    | Action.meld idxs => idxs.Nodup ∧ ∀ i ∈ idxs, i < (currentPlayer s).hand.length
    | Action.sapaw t m idxs =>
        t < s.players.length ∧ m < (s.players.getD t default).exposedMelds.length ∧
          idxs.Nodup ∧ ∀ i ∈ idxs, i < (currentPlayer s).hand.length
    | Action.callDraw => True
    | Action.updateSelectedIndices _ => True
    | Action.autoSort => True
    | Action.shuffle _ => True
    | Action.nextGame _ => False
    | Action.resetGame _ => False

/-- Fold a list of (actor, action) submissions through `step`. -/
def applyTrace (s : GameState) : List (Nat × Action) → GameState
  | [] => s
  | (actor, a) :: rest => applyTrace (step s actor a) rest

/-- Every submission of the trace is legal in the state where it applies. -/
def LegalTrace : GameState → List (Nat × Action) → Prop
  | _, [] => True
  | s, (actor, a) :: rest => LegalAction s actor a ∧ LegalTrace (step s actor a) rest

/-- A shuffle oracle that routes the 9 of hearts to the top of the dealt
deck (seat 0, first card), and the 9 of spades with the 9 of diamonds to the
first two cards of seat 1; all other Fisher-Yates steps are identity. -/
def seedC1x : List Nat := (List.range 51).map fun t =>
  if t == 0 then 8 else if t == 1 then 47 else if t == 4 then 21 else 51 - t

/-- A concrete session for the C7 witness: seat 0 holds exactly a valid set
of three nines. -/
def tongitsWitState : GameState :=
  { players := [
      { freshPlayer 0 1 with hand := [⟨Suit.spades, Rank.r9⟩, ⟨Suit.hearts, Rank.r9⟩,
          ⟨Suit.diamonds, Rank.r9⟩] },
      { freshPlayer 1 2 with hand := [⟨Suit.clubs, Rank.K⟩] },
      { freshPlayer 2 3 with hand := [⟨Suit.clubs, Rank.r5⟩] }],
    deck := [], discardPile := [], currentPlayerIndex := 0, hasDrawnThisTurn := true,
    round := 1, entryFee := 500, gameEnded := false, winner := none,
    selectedCardIndices := [], gameStarted := true, firstPlayerHasPlayed := true }

/-- A concrete session for the C8 witness: three players with distinct ids and
small hands of different point values. -/
def callDrawWitState : GameState :=
  { players := [
      { freshPlayer 0 1 with hand := [⟨Suit.clubs, Rank.K⟩] },
      { freshPlayer 1 2 with hand := [⟨Suit.hearts, Rank.r3⟩] },
      { freshPlayer 2 3 with hand := [⟨Suit.spades, Rank.A⟩] }],
    deck := [], discardPile := [], currentPlayerIndex := 0, hasDrawnThisTurn := true,
    round := 1, entryFee := 500, gameEnded := false, winner := none,
    selectedCardIndices := [], gameStarted := true, firstPlayerHasPlayed := true }

/-- A random oracle that puts the four nines on top of the deck, so that
seat 0 is dealt 9S, 9H, 9C, 9D as its first four cards. -/
def seedC9 : List Nat := (List.range 51).map fun t =>
  if t == 0 then 47 else if t == 3 then 8 else if t == 6 then 34
  else if t == 9 then 21 else 51 - t

/-- The in-round actions other than sapaw (game-boundary resets excluded). -/
def isInRoundNonSapaw : Action → Bool
  | Action.draw _ _ => true
  | Action.discard _ => true
  | Action.meld _ => true
  | Action.callDraw => true
  | Action.updateSelectedIndices _ => true
  | Action.autoSort => true
  | Action.shuffle _ => true
  | Action.sapaw _ _ _ => false
  | Action.nextGame _ => false
  | Action.resetGame _ => false

/-- A concrete session for the C9 witness: seat 1 has an exposed meld of
three nines and seat 0, to act, holds the fourth nine. -/
def sapawWitState : GameState :=
  { players := [
      { freshPlayer 0 1 with hand := [⟨Suit.diamonds, Rank.r9⟩] },
      { freshPlayer 1 2 with
          hand := [⟨Suit.clubs, Rank.K⟩],
          exposedMelds := [[⟨Suit.spades, Rank.r9⟩, ⟨Suit.hearts, Rank.r9⟩,
            ⟨Suit.clubs, Rank.r9⟩]] },
      { freshPlayer 2 3 with hand := [⟨Suit.clubs, Rank.r5⟩] }],
    deck := [], discardPile := [], currentPlayerIndex := 0, hasDrawnThisTurn := true,
    round := 1, entryFee := 500, gameEnded := false, winner := none,
    selectedCardIndices := [], gameStarted := true, firstPlayerHasPlayed := true }

/-- The random oracle under which every Fisher-Yates step swaps an index
with itself, leaving the deck in created order. -/
def idSeed : List Nat := (List.range 51).map fun t => 51 - t

/-- The actions that never move `currentPlayerIndex` (every action except
discard and the game-boundary resets, which return the turn to seat 0). -/
def keepsTurn : Action → Bool
  | Action.discard _ => false
  | Action.nextGame _ => false
  | Action.resetGame _ => false
  | _ => true

/-- A concrete session for the C5 witness: seat 1 to act, already drawn. -/
def discardWitState : GameState :=
  { players := [
      { freshPlayer 0 1 with hand := [⟨Suit.clubs, Rank.K⟩] },
      { freshPlayer 1 2 with hand := [⟨Suit.hearts, Rank.r3⟩] },
      { freshPlayer 2 3 with hand := [⟨Suit.spades, Rank.A⟩] }],
    deck := [], discardPile := [], currentPlayerIndex := 1, hasDrawnThisTurn := true,
    round := 1, entryFee := 500, gameEnded := false, winner := none,
    selectedCardIndices := [], gameStarted := true, firstPlayerHasPlayed := true }

/-- A session with an empty discard pile, a one-card deck, and seat 1 to
act before drawing. -/
def emptyPileDrawState : GameState :=
  { players := [
      { freshPlayer 0 1 with hand := [⟨Suit.clubs, Rank.K⟩] },
      { freshPlayer 1 2 with hand := [⟨Suit.hearts, Rank.r3⟩] },
      { freshPlayer 2 3 with hand := [⟨Suit.spades, Rank.A⟩] }],
    deck := [⟨Suit.clubs, Rank.r7⟩], discardPile := [],
    currentPlayerIndex := 1, hasDrawnThisTurn := false,
    round := 1, entryFee := 500, gameEnded := false, winner := none,
    selectedCardIndices := [], gameStarted := true, firstPlayerHasPlayed := true }

/-- A session with seat 1 to act after drawing, used for an out-of-bounds
discard index. -/
def oobDiscardState : GameState :=
  { players := [
      { freshPlayer 0 1 with hand := [⟨Suit.clubs, Rank.K⟩] },
      { freshPlayer 1 2 with hand := [⟨Suit.hearts, Rank.r3⟩] },
      { freshPlayer 2 3 with hand := [⟨Suit.spades, Rank.A⟩] }],
    deck := [], discardPile := [],
    currentPlayerIndex := 1, hasDrawnThisTurn := true,
    round := 1, entryFee := 500, gameEnded := false, winner := none,
    selectedCardIndices := [], gameStarted := true, firstPlayerHasPlayed := true }

/-- The spec's wording of a set: exactly 3 or exactly 4 cards all sharing
one rank, suits irrelevant. -/
def SpecSet (cards : List Card) : Prop :=
  (cards.length = 3 ∨ cards.length = 4) ∧ ∀ c ∈ cards, ∀ d ∈ cards, c.rank = d.rank

/-- The spec's wording of a run: at least 3 cards, all one suit, whose
ranks under the fixed order A < 2 < ... < 10 < J < Q < K (A low, no
wraparound) are strictly consecutive after sorting; stated as the rank
numbers forming a block of consecutive values. -/
def SpecRun (cards : List Card) : Prop :=
  3 ≤ cards.length ∧ (∀ c ∈ cards, ∀ d ∈ cards, c.suit = d.suit) ∧
  ∃ a, Multiset.ofList (cards.map fun c => rankToNumber c.rank)
    = Multiset.ofList (List.range' a cards.length)

/-- A concrete session for the C6 witness: seat 1 to act before drawing,
the pile top is the 9 of diamonds and the hand holds two more nines. -/
def drawWitState : GameState :=
  { players := [
      { freshPlayer 0 1 with hand := [⟨Suit.clubs, Rank.K⟩] },
      { freshPlayer 1 2 with hand := [⟨Suit.spades, Rank.r9⟩, ⟨Suit.hearts, Rank.r9⟩,
          ⟨Suit.clubs, Rank.K⟩] },
      { freshPlayer 2 3 with hand := [⟨Suit.clubs, Rank.r5⟩] }],
    deck := [⟨Suit.diamonds, Rank.r2⟩], discardPile := [some ⟨Suit.diamonds, Rank.r9⟩],
    currentPlayerIndex := 1, hasDrawnThisTurn := false, round := 1, entryFee := 500,
    gameEnded := false, winner := none, selectedCardIndices := [], gameStarted := true,
    firstPlayerHasPlayed := true }

theorem coe_set_add (l : List Card) (i : Nat) (v : Card) (h : i < l.length) :
    ((l.set i v : List Card) : Multiset Card) + {l[i]} = (l : Multiset Card) + {v} := by
  induction l generalizing i with
  | nil => simp at h
  | cons a t ih =>
    cases i with
    | zero =>
      simp only [List.set_cons_zero, List.getElem_cons_zero, ← Multiset.cons_coe]
      rw [← Multiset.singleton_add, ← Multiset.singleton_add]
      abel
    | succ n =>
      have hn : n < t.length := by simpa using h
      simp only [List.set_cons_succ, List.getElem_cons_succ, ← Multiset.cons_coe]
      rw [Multiset.cons_add, Multiset.cons_add, ih n hn]

theorem coe_eraseIdx_add (l : List Card) (i : Nat) (h : i < l.length) :
    ((l.eraseIdx i : List Card) : Multiset Card) + {l[i]} = (l : Multiset Card) := by
  induction l generalizing i with
  | nil => simp at h
  | cons a t ih =>
    cases i with
    | zero =>
      simp only [List.eraseIdx_cons_zero, List.getElem_cons_zero, ← Multiset.cons_coe]
      rw [add_comm, Multiset.singleton_add]
    | succ n =>
      have hn : n < t.length := by simpa using h
      simp only [List.eraseIdx_cons_succ, List.getElem_cons_succ, ← Multiset.cons_coe]
      rw [Multiset.cons_add, ih n hn]

theorem coe_erase_add (l : List Card) (a : Card) (h : a ∈ l) :
    ((l.erase a : List Card) : Multiset Card) + {a} = (l : Multiset Card) := by
  have hm : a ∈ (l : Multiset Card) := by simpa using h
  have hce := Multiset.cons_erase hm
  rw [Multiset.coe_erase] at hce
  rw [add_comm, Multiset.singleton_add, hce]

theorem coe_dropLast_add (l : List Card) (c : Card) (h : l.getLast? = some c) :
    ((l.dropLast : List Card) : Multiset Card) + {c} = (l : Multiset Card) := by
  have hne : l ≠ [] := by
    intro e
    subst e
    simp at h
  have hc : l.getLast hne = c := by
    have := List.getLast?_eq_getLast l hne
    rw [h] at this
    exact (Option.some_inj.mp this).symm
  have hsplit := List.dropLast_concat_getLast hne
  rw [hc] at hsplit
  calc ((l.dropLast : List Card) : Multiset Card) + {c}
      = ((l.dropLast ++ [c] : List Card) : Multiset Card) := by
        rw [← Multiset.coe_add, Multiset.coe_singleton]
    _ = (l : Multiset Card) := by rw [hsplit]

theorem sum_map_set {α M : Type _} [AddCommMonoid M] (f : α → M) (l : List α) (j : Nat)
    (v : α) (h : j < l.length) :
    ((l.set j v).map f).sum + f l[j] = (l.map f).sum + f v := by
  induction l generalizing j with
  | nil => simp at h
  | cons a t ih =>
    cases j with
    | zero =>
      simp only [List.set_cons_zero, List.getElem_cons_zero, List.map_cons, List.sum_cons]
      abel
    | succ n =>
      have hn : n < t.length := by simpa using h
      simp only [List.set_cons_succ, List.getElem_cons_succ, List.map_cons, List.sum_cons]
      rw [add_assoc, add_assoc, ih n hn]

theorem coe_swapIdx (l : List Card) (i j : Nat) :
    ((swapIdx l i j : List Card) : Multiset Card) = (l : Multiset Card) := by
  unfold swapIdx
  cases hi : l[i]? with
  | none => simp
  | some a =>
    cases hj : l[j]? with
    | none => simp
    | some b =>
      simp only
      obtain ⟨hil, hia⟩ := List.getElem?_eq_some_iff.mp hi
      obtain ⟨hjl, hjb⟩ := List.getElem?_eq_some_iff.mp hj
      have hjl' : j < (l.set i b).length := by simpa using hjl
      have e1 : ((l.set i b : List Card) : Multiset Card) + {a}
          = (l : Multiset Card) + {b} := by
        have := coe_set_add l i b hil
        rwa [hia] at this
      have e2 : (((l.set i b).set j a : List Card) : Multiset Card) + {(l.set i b)[j]}
          = ((l.set i b : List Card) : Multiset Card) + {a} := coe_set_add _ j a hjl'
      have hsj : (l.set i b)[j] = b := by
        by_cases hij : i = j
        · subst hij
          simp
        · rw [List.getElem_set_ne hij]
          exact hjb
      rw [hsj, e1] at e2
      exact add_right_cancel e2

theorem coe_fyLoop (rand : List Nat) (t : Nat) (l : List Card) (i : Nat) :
    ((fyLoop rand t l i : List Card) : Multiset Card) = (l : Multiset Card) := by
  induction i generalizing t l with
  | zero => rfl
  | succ n ih => rw [fyLoop, ih, coe_swapIdx]

theorem coe_shuffleDeck (rand : List Nat) (deck : List Card) :
    ((shuffleDeck rand deck : List Card) : Multiset Card) = (deck : Multiset Card) :=
  coe_fyLoop rand 0 deck (deck.length - 1)

theorem coe_createDeck (rand : List Nat) :
    ((createDeck rand : List Card) : Multiset Card) = fullDeck :=
  coe_shuffleDeck rand orderedDeck

theorem foldl_preserve {β σ : Type _} (g : σ → β → σ) (P : σ → Prop) :
    ∀ (xs : List β) (st : σ), P st → (∀ st' b, b ∈ xs → P st' → P (g st' b)) →
      P (xs.foldl g st)
  | [], _, h, _ => h
  | x :: xs, st, h, hstep =>
    foldl_preserve g P xs (g st x) (hstep st x (List.mem_cons_self x xs) h)
      fun st' b hb => hstep st' b (List.mem_cons_of_mem x hb)

theorem dealOne_preserve (n : Nat) (C : Multiset Card) (st : List Card × List (List Card))
    (j : Nat) (hj : j < n)
    (h : ((st.1 : List Card) : Multiset Card) + handsSum st.2 = C ∧ st.2.length = n) :
    ((dealOne st j).1 : Multiset Card) + handsSum (dealOne st j).2 = C ∧
      (dealOne st j).2.length = n := by
  obtain ⟨hsum, hlen⟩ := h
  unfold dealOne
  cases hl : st.1.getLast? with
  | none => exact ⟨hsum, hlen⟩
  | some c =>
    simp only
    constructor
    · have hjn : j < st.2.length := hlen ▸ hj
      have hgd : st.2.getD j [] = st.2[j] := List.getD_eq_getElem st.2 [] hjn
      have hset := @sum_map_set (List Card) (Multiset Card) _
        (fun h => Multiset.ofList h) st.2 j (st.2[j] ++ [c]) hjn
      have hcoe : Multiset.ofList (st.2[j] ++ [c])
          = Multiset.ofList st.2[j] + {c} := by
        rw [← Multiset.coe_add, Multiset.coe_singleton]
      have key : handsSum (st.2.set j (st.2[j] ++ [c])) + Multiset.ofList st.2[j]
          = (handsSum st.2 + {c}) + Multiset.ofList st.2[j] := by
        unfold handsSum
        rw [hset, hcoe]
        abel
      have hHS := add_right_cancel key
      rw [hgd, hHS]
      calc Multiset.ofList st.1.dropLast + (handsSum st.2 + {c})
          = (Multiset.ofList st.1.dropLast + {c}) + handsSum st.2 := by abel
        _ = Multiset.ofList st.1 + handsSum st.2 := by
            rw [coe_dropLast_add st.1 c hl]
        _ = C := hsum
    · simpa using hlen

theorem dealCards_conserves (deck : List Card) (n m : Nat) :
    Multiset.ofList (dealCards deck n m).2 + handsSum (dealCards deck n m).1
      = Multiset.ofList deck ∧ (dealCards deck n m).1.length = n := by
  have hmap : (List.replicate n ([] : List Card)).map (fun h => Multiset.ofList h)
      = List.replicate n (0 : Multiset Card) := by
    rw [List.map_replicate]
    rfl
  have base : Multiset.ofList deck + handsSum (List.replicate n ([] : List Card))
      = Multiset.ofList deck ∧ (List.replicate n ([] : List Card)).length = n := by
    constructor
    · unfold handsSum
      rw [hmap, List.sum_replicate]
      simp
    · simp
  have main := foldl_preserve
    (fun st _ => (List.range n).foldl dealOne st)
    (fun st => Multiset.ofList st.1 + handsSum st.2 = Multiset.ofList deck ∧ st.2.length = n)
    (List.range m) (deck, List.replicate n ([] : List Card)) base
    (fun st' _ _ hP =>
      foldl_preserve dealOne
        (fun st => Multiset.ofList st.1 + handsSum st.2 = Multiset.ofList deck ∧ st.2.length = n)
        (List.range n) st' hP
        (fun st'' j hj hP' => dealOne_preserve n _ st'' j (List.mem_range.mp hj) hP'))
  exact ⟨main.1, main.2⟩

theorem eraseFold_ms (js : List Nat) (l : List Card) (hsort : js.Pairwise (· > ·))
    (hb : ∀ j ∈ js, j < l.length) :
    Multiset.ofList (js.foldl (fun h i => h.eraseIdx i) l)
      + Multiset.ofList (js.map fun j => l.getD j default) = Multiset.ofList l := by
  induction js generalizing l with
  | nil => simp
  | cons j rest ih =>
    simp only [List.foldl_cons, List.map_cons]
    have hj : j < l.length := hb j (List.mem_cons_self j rest)
    have hgt : ∀ x ∈ rest, x < j := fun x hx => (List.pairwise_cons.mp hsort).1 x hx
    have hb' : ∀ x ∈ rest, x < (l.eraseIdx j).length := by
      intro x hx
      have h1 := hgt x hx
      have h2 := List.length_eraseIdx_of_lt hj
      omega
    have hagree : ∀ x ∈ rest, (l.eraseIdx j).getD x default = l.getD x default := by
      intro x hx
      have hxj := hgt x hx
      rw [List.getD_eq_getElem?_getD, List.getD_eq_getElem?_getD, List.getElem?_eraseIdx]
      simp [hxj]
    have ihh := ih (l.eraseIdx j) (List.Pairwise.of_cons hsort) hb'
    rw [List.map_congr_left hagree] at ihh
    have hcons : Multiset.ofList ((l.getD j default) :: rest.map fun x => l.getD x default)
        = {l.getD j default}
          + Multiset.ofList (rest.map fun x => l.getD x default) := by
      rw [← Multiset.cons_coe, ← Multiset.singleton_add]
    rw [hcons, List.getD_eq_getElem l default hj]
    calc Multiset.ofList (rest.foldl (fun h i => h.eraseIdx i) (l.eraseIdx j))
          + ({l[j]} + Multiset.ofList (rest.map fun x => l.getD x default))
        = (Multiset.ofList (rest.foldl (fun h i => h.eraseIdx i) (l.eraseIdx j))
            + Multiset.ofList (rest.map fun x => l.getD x default)) + {l[j]} := by abel
      _ = Multiset.ofList (l.eraseIdx j) + {l[j]} := by rw [ihh]
      _ = Multiset.ofList l := coe_eraseIdx_add l j hj

theorem removeIndicesDesc_ms (l : List Card) (idxs : List Nat) (hnd : idxs.Nodup)
    (hb : ∀ i ∈ idxs, i < l.length) :
    Multiset.ofList (removeIndicesDesc l idxs)
      + Multiset.ofList (idxs.map fun i => l.getD i default) = Multiset.ofList l := by
  unfold removeIndicesDesc
  have hperm : (idxs.insertionSort (· ≥ ·)).Perm idxs := List.perm_insertionSort _ idxs
  have hsorted : (idxs.insertionSort (· ≥ ·)).Pairwise (· ≥ ·) :=
    List.sorted_insertionSort (· ≥ ·) idxs
  have hnd' : (idxs.insertionSort (· ≥ ·)).Nodup := hperm.nodup_iff.mpr hnd
  have hstrict : (idxs.insertionSort (· ≥ ·)).Pairwise (· > ·) :=
    (hsorted.and hnd').imp fun h => lt_of_le_of_ne h.1 (Ne.symm h.2)
  have hb' : ∀ j ∈ idxs.insertionSort (· ≥ ·), j < l.length := fun j hj =>
    hb j (hperm.mem_iff.mp hj)
  have hmap : Multiset.ofList (idxs.map fun i => l.getD i default)
      = Multiset.ofList ((idxs.insertionSort (· ≥ ·)).map fun i => l.getD i default) :=
    Multiset.coe_eq_coe.mpr (hperm.map fun i => l.getD i default).symm
  rw [hmap]
  exact eraseFold_ms (idxs.insertionSort (· ≥ ·)) l hstrict hb'

theorem pickCards_filterMap (hand : List Card) (idxs : List Nat)
    (hb : ∀ i ∈ idxs, i < hand.length) :
    (pickCards hand idxs).filterMap id = idxs.map fun i => hand.getD i default := by
  unfold pickCards
  induction idxs with
  | nil => rfl
  | cons i rest ih =>
    have hi : i < hand.length := hb i (List.mem_cons_self i rest)
    simp only [List.map_cons, List.filterMap_cons, List.getElem?_eq_getElem hi, id]
    rw [ih fun x hx => hb x (List.mem_cons_of_mem i hx), List.getD_eq_getElem hand default hi]

theorem pile_pop_ms (pile : List (Option Card)) (c : Card)
    (h : pile.getLast? = some (some c)) :
    Multiset.ofList (pile.filterMap id)
      = Multiset.ofList (pile.dropLast.filterMap id) + {c} := by
  have hne : pile ≠ [] := by
    intro e
    subst e
    simp at h
  have hc : pile.getLast hne = some c := by
    have h2 := List.getLast?_eq_getLast pile hne
    rw [h] at h2
    exact (Option.some_inj.mp h2).symm
  have hsplit := List.dropLast_concat_getLast hne
  rw [hc] at hsplit
  conv_lhs => rw [← hsplit]
  rw [List.filterMap_append]
  simp [← Multiset.coe_add, Multiset.coe_singleton]

theorem sum_playerCards_map (ps : List Player) (f : Player → Player)
    (h : ∀ p, playerCards (f p) = playerCards p) :
    ((ps.map f).map playerCards).sum = (ps.map playerCards).sum := by
  rw [List.map_map]
  exact congrArg List.sum (List.map_congr_left fun p _ => h p)

theorem allCards_set_player (s : GameState) (i : Nat) (p' : Player)
    (hi : i < s.players.length) :
    ((s.players.set i p').map playerCards).sum + playerCards s.players[i]
      = (s.players.map playerCards).sum + playerCards p' :=
  @sum_map_set Player (Multiset Card) _ playerCards s.players i p' hi


theorem coe_append_ms (l1 l2 : List Card) :
    Multiset.ofList (l1 ++ l2) = Multiset.ofList l1 + Multiset.ofList l2 :=
  (Multiset.coe_add l1 l2).symm

theorem meldsSum_append (ms : List (List Card)) (m : List Card) :
    ((ms ++ [m]).map fun x => Multiset.ofList x).sum
      = (ms.map fun x => Multiset.ofList x).sum + Multiset.ofList m := by
  simp

theorem meldsSum_set (ms : List (List Card)) (k : Nat) (m : List Card) (hk : k < ms.length) :
    ((ms.set k m).map fun x => Multiset.ofList x).sum + Multiset.ofList ms[k]
      = (ms.map fun x => Multiset.ofList x).sum + Multiset.ofList m :=
  @sum_map_set (List Card) (Multiset Card) _ (fun x => Multiset.ofList x) ms k m hk

theorem sum_set_cp' (s : GameState) (cp' : Player)
    (hcur : s.currentPlayerIndex < s.players.length) (dm dp : Multiset Card)
    (hdelta : playerCards cp' + dm = playerCards (currentPlayer s) + dp) :
    ((s.players.set s.currentPlayerIndex cp').map playerCards).sum + dm
      = (s.players.map playerCards).sum + dp := by
  have hcp : currentPlayer s = s.players[s.currentPlayerIndex] :=
    List.getD_eq_getElem _ _ hcur
  rw [hcp] at hdelta
  have h := allCards_set_player s s.currentPlayerIndex cp' hcur
  have hcomb : (((s.players.set s.currentPlayerIndex cp').map playerCards).sum + dm)
        + (playerCards s.players[s.currentPlayerIndex] + playerCards cp')
      = ((s.players.map playerCards).sum + dp)
        + (playerCards s.players[s.currentPlayerIndex] + playerCards cp') := by
    calc (((s.players.set s.currentPlayerIndex cp').map playerCards).sum + dm)
          + (playerCards s.players[s.currentPlayerIndex] + playerCards cp')
        = (((s.players.set s.currentPlayerIndex cp').map playerCards).sum
            + playerCards s.players[s.currentPlayerIndex]) + (playerCards cp' + dm) := by
          abel
      _ = ((s.players.map playerCards).sum + playerCards cp')
            + (playerCards s.players[s.currentPlayerIndex] + dp) := by
          rw [h, hdelta]
      _ = ((s.players.map playerCards).sum + dp)
            + (playerCards s.players[s.currentPlayerIndex] + playerCards cp') := by
          abel
  exact add_right_cancel hcomb

theorem pile_some_dropLast (pile : List (Option Card))
    (h : ∀ c ∈ pile, c.isSome = true) : ∀ c ∈ pile.dropLast, c.isSome = true :=
  fun c hc => h c ((List.dropLast_sublist pile).subset hc)

theorem handleDraw_conserves (s : GameState) (fromDeck : Bool) (mi : List Nat)
    (hc : Conserved s) (hnd : mi.Nodup)
    (hbm : ∀ i ∈ mi, i < (currentPlayer s).hand.length) :
    Conserved (handleDraw s fromDeck mi) := by
  obtain ⟨hp3, hcur, hpile, hsum⟩ := hc
  have hcurlen : s.currentPlayerIndex < s.players.length := by omega
  unfold handleDraw
  by_cases hdrawn : s.hasDrawnThisTurn
  · simp only [hdrawn, if_true]
    exact ⟨hp3, hcur, hpile, hsum⟩
  · simp only [Bool.not_eq_true] at hdrawn
    rw [hdrawn]
    simp only [Bool.false_eq_true, if_false]
    by_cases hbr : (!fromDeck && !s.discardPile.isEmpty) = true
    · rw [if_pos hbr]
      cases hlast : s.discardPile.getLast? with
      | none => exact ⟨hp3, hcur, hpile, hsum⟩
      | some topO =>
        cases topO with
        | none => exact ⟨hp3, hcur, hpile, hsum⟩
        | some topCard =>
          dsimp only
          by_cases hcm : (canFormMeldWithCard topCard (currentPlayer s).hand).1 = true
          · rw [if_neg (by rw [hcm]; simp)]
            have hpop := pile_pop_ms s.discardPile topCard hlast
            have hpile' := pile_some_dropLast s.discardPile hpile
            by_cases hmeld : (!mi.isEmpty
                && isValidMeldO (pickCards (currentPlayer s).hand mi ++ [some topCard])) = true
            · rw [if_pos hmeld]
              refine ⟨by simp [hp3], hcur, hpile', ?_⟩
              have hpickeq := pickCards_filterMap (currentPlayer s).hand mi hbm
              have hrem := removeIndicesDesc_ms (currentPlayer s).hand mi hnd hbm
              have hdelta : playerCards { currentPlayer s with
                    hand := removeIndicesDesc (currentPlayer s).hand mi,
                    exposedMelds := (currentPlayer s).exposedMelds
                      ++ [(pickCards (currentPlayer s).hand mi ++ [some topCard]).filterMap id] }
                  + 0
                  = playerCards (currentPlayer s) + {topCard} := by
                unfold playerCards
                simp only [meldsSum_append, List.filterMap_append, hpickeq]
                have hsing : (([some topCard] : List (Option Card)).filterMap id) = [topCard] := rfl
                rw [hsing, coe_append_ms, Multiset.coe_singleton]
                calc Multiset.ofList (removeIndicesDesc (currentPlayer s).hand mi)
                      + (((currentPlayer s).exposedMelds.map fun m => Multiset.ofList m).sum
                        + (Multiset.ofList (mi.map fun i =>
                            (currentPlayer s).hand.getD i default) + {topCard}))
                      + ((currentPlayer s).secretMelds.map fun m => Multiset.ofList m).sum + 0
                    = (Multiset.ofList (removeIndicesDesc (currentPlayer s).hand mi)
                        + Multiset.ofList (mi.map fun i =>
                            (currentPlayer s).hand.getD i default))
                      + ((currentPlayer s).exposedMelds.map fun m => Multiset.ofList m).sum
                      + ((currentPlayer s).secretMelds.map fun m => Multiset.ofList m).sum
                      + {topCard} := by abel
                  _ = Multiset.ofList (currentPlayer s).hand
                      + ((currentPlayer s).exposedMelds.map fun m => Multiset.ofList m).sum
                      + ((currentPlayer s).secretMelds.map fun m => Multiset.ofList m).sum
                      + {topCard} := by rw [hrem]
              have hsm := sum_set_cp' s _ hcurlen 0 {topCard} hdelta
              unfold allCards
              simp only
              rw [add_zero] at hsm
              rw [hsm]
              unfold allCards at hsum
              rw [hpop] at hsum
              calc Multiset.ofList s.deck
                    + Multiset.ofList (s.discardPile.dropLast.filterMap id)
                    + ((s.players.map playerCards).sum + {topCard})
                  = Multiset.ofList s.deck
                    + (Multiset.ofList (s.discardPile.dropLast.filterMap id) + {topCard})
                    + (s.players.map playerCards).sum := by abel
                _ = fullDeck := hsum
            · rw [if_neg hmeld]
              refine ⟨by simp [hp3], hcur, hpile', ?_⟩
              have hdelta : playerCards { currentPlayer s with
                    hand := (currentPlayer s).hand ++ [topCard] } + 0
                  = playerCards (currentPlayer s) + {topCard} := by
                unfold playerCards
                simp only [coe_append_ms, Multiset.coe_singleton]
                abel
              have hsm := sum_set_cp' s _ hcurlen 0 {topCard} hdelta
              rw [add_zero] at hsm
              unfold allCards
              simp only
              rw [hsm]
              unfold allCards at hsum
              rw [hpop] at hsum
              calc Multiset.ofList s.deck
                    + Multiset.ofList (s.discardPile.dropLast.filterMap id)
                    + ((s.players.map playerCards).sum + {topCard})
                  = Multiset.ofList s.deck
                    + (Multiset.ofList (s.discardPile.dropLast.filterMap id) + {topCard})
                    + (s.players.map playerCards).sum := by abel
                _ = fullDeck := hsum
          · have hcm' : (canFormMeldWithCard topCard (currentPlayer s).hand).1 = false := by
              revert hcm
              cases (canFormMeldWithCard topCard (currentPlayer s).hand).1 <;> simp
            rw [if_pos (by rw [hcm']; rfl)]
            exact ⟨hp3, hcur, hpile, hsum⟩
    · rw [if_neg hbr]
      by_cases hdk : (!s.deck.isEmpty) = true
      · rw [if_pos hdk]
        cases hdl : s.deck.getLast? with
        | none => exact ⟨hp3, hcur, hpile, hsum⟩
        | some c =>
          dsimp only
          refine ⟨by simp [hp3], hcur, hpile, ?_⟩
          have hdelta : playerCards { currentPlayer s with
                hand := (currentPlayer s).hand ++ [c] } + 0
              = playerCards (currentPlayer s) + {c} := by
            unfold playerCards
            simp only [coe_append_ms, Multiset.coe_singleton]
            abel
          have hsm := sum_set_cp' s _ hcurlen 0 {c} hdelta
          rw [add_zero] at hsm
          unfold allCards
          simp only
          rw [hsm]
          unfold allCards at hsum
          have hdpop := coe_dropLast_add s.deck c hdl
          calc Multiset.ofList s.deck.dropLast
                + Multiset.ofList (s.discardPile.filterMap id)
                + ((s.players.map playerCards).sum + {c})
              = (Multiset.ofList s.deck.dropLast + {c})
                + Multiset.ofList (s.discardPile.filterMap id)
                + (s.players.map playerCards).sum := by abel
            _ = fullDeck := by rw [hdpop]; exact hsum
      · rw [if_neg hdk]
        exact ⟨hp3, hcur, hpile, hsum⟩


theorem handleDiscard_conserves (s : GameState) (i : Nat) (hc : Conserved s)
    (hbi : i < (currentPlayer s).hand.length) :
    Conserved (handleDiscard s i) := by
  obtain ⟨hp3, hcur, hpile, hsum⟩ := hc
  have hcurlen : s.currentPlayerIndex < s.players.length := by omega
  unfold handleDiscard
  by_cases hg : (!s.hasDrawnThisTurn && s.currentPlayerIndex != 0) = true
  · rw [if_pos hg]
    exact ⟨hp3, hcur, hpile, hsum⟩
  · rw [if_neg hg]
    have hsomei : (currentPlayer s).hand[i]? = some (currentPlayer s).hand[i] :=
      List.getElem?_eq_getElem hbi
    refine ⟨by simp [hp3], ?_, ?_, ?_⟩
    · simp only [List.length_set]
      have : (s.currentPlayerIndex + 1) % s.players.length < s.players.length :=
        Nat.mod_lt _ (by omega)
      omega
    · intro c hcmem
      rcases List.mem_append.mp hcmem with hold | hnew
      · exact hpile c hold
      · rcases List.mem_singleton.mp hnew with rfl
        rw [hsomei]
        rfl
    · have hdelta : playerCards { currentPlayer s with
            hand := (currentPlayer s).hand.eraseIdx i,
            turnsPlayed := (currentPlayer s).turnsPlayed + 1 }
          + {(currentPlayer s).hand[i]}
          = playerCards (currentPlayer s) + 0 := by
        unfold playerCards
        have her := coe_eraseIdx_add (currentPlayer s).hand i hbi
        calc Multiset.ofList ((currentPlayer s).hand.eraseIdx i)
              + ((currentPlayer s).exposedMelds.map fun m => Multiset.ofList m).sum
              + ((currentPlayer s).secretMelds.map fun m => Multiset.ofList m).sum
              + {(currentPlayer s).hand[i]}
            = (Multiset.ofList ((currentPlayer s).hand.eraseIdx i)
                + {(currentPlayer s).hand[i]})
              + ((currentPlayer s).exposedMelds.map fun m => Multiset.ofList m).sum
              + ((currentPlayer s).secretMelds.map fun m => Multiset.ofList m).sum := by abel
          _ = Multiset.ofList (currentPlayer s).hand
              + ((currentPlayer s).exposedMelds.map fun m => Multiset.ofList m).sum
              + ((currentPlayer s).secretMelds.map fun m => Multiset.ofList m).sum + 0 := by
              rw [her]; abel
      have hsm := sum_set_cp' s _ hcurlen {(currentPlayer s).hand[i]} 0 hdelta
      rw [add_zero] at hsm
      unfold allCards
      dsimp only
      rw [List.filterMap_append, hsomei]
      have hfm1 : (List.filterMap id [some (currentPlayer s).hand[i]]) = [(currentPlayer s).hand[i]] := rfl
      rw [hfm1, coe_append_ms, Multiset.coe_singleton]
      unfold allCards at hsum
      calc Multiset.ofList s.deck
            + (Multiset.ofList (s.discardPile.filterMap id) + {(currentPlayer s).hand[i]})
            + ((s.players.set s.currentPlayerIndex _).map playerCards).sum
          = Multiset.ofList s.deck
            + Multiset.ofList (s.discardPile.filterMap id)
            + (((s.players.set s.currentPlayerIndex _).map playerCards).sum
              + {(currentPlayer s).hand[i]}) := by abel
        _ = Multiset.ofList s.deck
            + Multiset.ofList (s.discardPile.filterMap id)
            + (s.players.map playerCards).sum := by rw [hsm]
        _ = fullDeck := hsum

theorem handleTongits_conserves (s : GameState) (hc : Conserved s) :
    Conserved (handleTongits s) := by
  obtain ⟨hp3, hcur, hpile, hsum⟩ := hc
  unfold handleTongits
  refine ⟨by simp [hp3], hcur, hpile, ?_⟩
  unfold allCards
  dsimp only
  have hmap := sum_playerCards_map s.players (tongitsUpd (currentPlayer s).id)
    (fun p => by unfold tongitsUpd; split <;> rfl)
  rw [hmap]
  exact hsum

theorem handleMeld_conserves (s : GameState) (idxs : List Nat) (hc : Conserved s)
    (hnd : idxs.Nodup) (hb : ∀ i ∈ idxs, i < (currentPlayer s).hand.length) :
    Conserved (handleMeld s idxs) := by
  obtain ⟨hp3, hcur, hpile, hsum⟩ := hc
  have hcurlen : s.currentPlayerIndex < s.players.length := by omega
  unfold handleMeld
  by_cases hv : isValidMeldO (pickCards (currentPlayer s).hand idxs) = true
  · rw [if_neg (by rw [hv]; simp)]
    have hpickeq := pickCards_filterMap (currentPlayer s).hand idxs hb
    have hrem := removeIndicesDesc_ms (currentPlayer s).hand idxs hnd hb
    have hdelta : playerCards { currentPlayer s with
          exposedMelds := (currentPlayer s).exposedMelds
            ++ [(pickCards (currentPlayer s).hand idxs).filterMap id],
          hand := removeIndicesDesc (currentPlayer s).hand idxs } + 0
        = playerCards (currentPlayer s) + 0 := by
      unfold playerCards
      simp only [meldsSum_append, hpickeq]
      calc Multiset.ofList (removeIndicesDesc (currentPlayer s).hand idxs)
            + (((currentPlayer s).exposedMelds.map fun m => Multiset.ofList m).sum
              + Multiset.ofList (idxs.map fun i => (currentPlayer s).hand.getD i default))
            + ((currentPlayer s).secretMelds.map fun m => Multiset.ofList m).sum + 0
          = (Multiset.ofList (removeIndicesDesc (currentPlayer s).hand idxs)
              + Multiset.ofList (idxs.map fun i => (currentPlayer s).hand.getD i default))
            + ((currentPlayer s).exposedMelds.map fun m => Multiset.ofList m).sum
            + ((currentPlayer s).secretMelds.map fun m => Multiset.ofList m).sum := by abel
        _ = Multiset.ofList (currentPlayer s).hand
            + ((currentPlayer s).exposedMelds.map fun m => Multiset.ofList m).sum
            + ((currentPlayer s).secretMelds.map fun m => Multiset.ofList m).sum + 0 := by
            rw [hrem]; abel
    have hsm := sum_set_cp' s _ hcurlen 0 0 hdelta
    rw [add_zero, add_zero] at hsm
    have hs' : Conserved { s with
        players := s.players.set s.currentPlayerIndex
          { currentPlayer s with
            exposedMelds := (currentPlayer s).exposedMelds
              ++ [(pickCards (currentPlayer s).hand idxs).filterMap id],
            hand := removeIndicesDesc (currentPlayer s).hand idxs },
        selectedCardIndices := [] } := by
      refine ⟨by simp [hp3], hcur, hpile, ?_⟩
      unfold allCards
      dsimp only
      rw [hsm]
      exact hsum
    dsimp only
    by_cases hemp : (removeIndicesDesc (currentPlayer s).hand idxs).isEmpty = true
    · rw [if_pos hemp]
      exact handleTongits_conserves _ hs'
    · rw [if_neg hemp]
      exact hs'
  · have hv' : isValidMeldO (pickCards (currentPlayer s).hand idxs) = false := by
      revert hv
      cases isValidMeldO (pickCards (currentPlayer s).hand idxs) <;> simp
    rw [if_pos (by rw [hv']; rfl)]
    exact ⟨hp3, hcur, hpile, hsum⟩


theorem playerCards_eq (p : Player) :
    playerCards p = Multiset.ofList p.hand
      + (p.exposedMelds.map fun x => Multiset.ofList x).sum
      + (p.secretMelds.map fun x => Multiset.ofList x).sum := rfl

theorem sum_playerCards_map' (ps : List Player) (f : Player → Player)
    (h : ∀ p, playerCards (f p) = playerCards p) (d pl : Multiset Card)
    (hs : d + pl + (ps.map playerCards).sum = fullDeck) :
    d + pl + ((ps.map f).map playerCards).sum = fullDeck := by
  rw [List.map_map]
  have hfe : playerCards ∘ f = playerCards := funext fun p => h p
  rw [hfe]
  exact hs

theorem handleSapaw_conserves (s : GameState) (t m : Nat) (idxs : List Nat)
    (hc : Conserved s) (ht : t < s.players.length)
    (hm : m < (s.players.getD t default).exposedMelds.length)
    (hnd : idxs.Nodup) (hb : ∀ i ∈ idxs, i < (currentPlayer s).hand.length) :
    Conserved (handleSapaw s t m idxs) := by
  obtain ⟨hp3, hcur, hpile, hsum⟩ := hc
  have hcurlen : s.currentPlayerIndex < s.players.length := by omega
  have hgdt : s.players.getD t default = s.players[t] := List.getD_eq_getElem _ _ ht
  rw [hgdt] at hm
  unfold handleSapaw
  rw [List.getElem?_eq_getElem ht]
  dsimp only
  rw [List.getElem?_eq_getElem hm]
  dsimp only
  by_cases hv : isValidMeldO (s.players[t].exposedMelds[m].map some
      ++ pickCards (currentPlayer s).hand idxs) = true
  · rw [if_neg (by rw [hv]; simp)]
    refine ⟨by simp [hp3], hcur, hpile, ?_⟩
    have hpickeq := pickCards_filterMap (currentPlayer s).hand idxs hb
    have hfmbase : (s.players[t].exposedMelds[m].map some
          ++ pickCards (currentPlayer s).hand idxs).filterMap id
        = s.players[t].exposedMelds[m]
          ++ idxs.map fun i => (currentPlayer s).hand.getD i default := by
      rw [List.filterMap_append, hpickeq, List.filterMap_map]
      simp [Function.comp, List.filterMap_some]
    set picked := idxs.map fun i => (currentPlayer s).hand.getD i default with hpicked
    set tp1 : Player := { s.players[t] with
      exposedMelds := s.players[t].exposedMelds.set m
        ((s.players[t].exposedMelds[m].map some
          ++ pickCards (currentPlayer s).hand idxs).filterMap id) } with htp1
    have hpc1 : playerCards tp1 = playerCards s.players[t] + Multiset.ofList picked := by
      rw [htp1]
      unfold playerCards
      dsimp only
      rw [hfmbase]
      have hms := meldsSum_set s.players[t].exposedMelds m
        (s.players[t].exposedMelds[m] ++ picked) hm
      rw [coe_append_ms] at hms
      have hms2 : ((s.players[t].exposedMelds.set m
            (s.players[t].exposedMelds[m] ++ picked)).map fun x => Multiset.ofList x).sum
          = ((s.players[t].exposedMelds.map fun x => Multiset.ofList x).sum
            + Multiset.ofList picked) := by
        have hc2 : ((s.players[t].exposedMelds.set m
              (s.players[t].exposedMelds[m] ++ picked)).map fun x => Multiset.ofList x).sum
              + Multiset.ofList s.players[t].exposedMelds[m]
            = (((s.players[t].exposedMelds.map fun x => Multiset.ofList x).sum
              + Multiset.ofList picked)) + Multiset.ofList s.players[t].exposedMelds[m] := by
          rw [hms]
          abel
        exact add_right_cancel hc2
      rw [hms2]
      abel
    have hS1 := @sum_map_set Player (Multiset Card) _ playerCards s.players t tp1 ht
    rw [hpc1] at hS1
    have hsum1 : ((s.players.set t tp1).map playerCards).sum
        = (s.players.map playerCards).sum + Multiset.ofList picked := by
      have hc2 : ((s.players.set t tp1).map playerCards).sum + playerCards s.players[t]
          = ((s.players.map playerCards).sum + Multiset.ofList picked)
            + playerCards s.players[t] := by
        rw [hS1]
        abel
      exact add_right_cancel hc2
    have hcurlen1 : s.currentPlayerIndex < (s.players.set t tp1).length := by
      simpa using hcurlen
    have hcp1 : (s.players.set t tp1).getD s.currentPlayerIndex default
        = (s.players.set t tp1)[s.currentPlayerIndex] :=
      List.getD_eq_getElem _ _ hcurlen1
    have hhand1 : ((s.players.set t tp1).getD s.currentPlayerIndex default).hand
        = (currentPlayer s).hand := by
      rw [hcp1]
      by_cases hteq : t = s.currentPlayerIndex
      · subst hteq
        rw [List.getElem_set_self]
        rw [htp1]
        dsimp only
        unfold currentPlayer
        rw [List.getD_eq_getElem _ _ hcurlen]
      · rw [List.getElem_set_ne hteq]
        unfold currentPlayer
        rw [List.getD_eq_getElem _ _ hcurlen]
    set cp1 := (s.players.set t tp1).getD s.currentPlayerIndex default with hcp1def
    set cp2 : Player := { cp1 with hand := removeIndicesDesc cp1.hand idxs } with hcp2
    have hrem := removeIndicesDesc_ms (currentPlayer s).hand idxs hnd hb
    have hpc2 : playerCards cp2 + Multiset.ofList picked = playerCards cp1 := by
      rw [hcp2]
      simp only [playerCards_eq]
      rw [hhand1]
      calc Multiset.ofList (removeIndicesDesc (currentPlayer s).hand idxs)
            + (cp1.exposedMelds.map fun x => Multiset.ofList x).sum
            + (cp1.secretMelds.map fun x => Multiset.ofList x).sum
            + Multiset.ofList picked
          = (Multiset.ofList (removeIndicesDesc (currentPlayer s).hand idxs)
              + Multiset.ofList picked)
            + (cp1.exposedMelds.map fun x => Multiset.ofList x).sum
            + (cp1.secretMelds.map fun x => Multiset.ofList x).sum := by abel
        _ = Multiset.ofList (currentPlayer s).hand
            + (cp1.exposedMelds.map fun x => Multiset.ofList x).sum
            + (cp1.secretMelds.map fun x => Multiset.ofList x).sum := by
            rw [hpicked, hrem]
    have hS2 := @sum_map_set Player (Multiset Card) _ playerCards
      (s.players.set t tp1) s.currentPlayerIndex cp2 hcurlen1
    have hsum2 : (((s.players.set t tp1).set s.currentPlayerIndex cp2).map playerCards).sum
        = (s.players.map playerCards).sum := by
      have hgetcp1 : (s.players.set t tp1)[s.currentPlayerIndex] = cp1 :=
        (List.getD_eq_getElem _ _ hcurlen1).symm
      rw [hgetcp1] at hS2
      have hc2 : (((s.players.set t tp1).set s.currentPlayerIndex cp2).map playerCards).sum
            + (playerCards cp1 + Multiset.ofList picked)
          = (s.players.map playerCards).sum + (playerCards cp1 + Multiset.ofList picked) := by
        calc (((s.players.set t tp1).set s.currentPlayerIndex cp2).map playerCards).sum
              + (playerCards cp1 + Multiset.ofList picked)
            = ((((s.players.set t tp1).set s.currentPlayerIndex cp2).map playerCards).sum
                + playerCards cp1) + Multiset.ofList picked := by abel
          _ = (((s.players.set t tp1).map playerCards).sum + playerCards cp2)
                + Multiset.ofList picked := by rw [hS2]
          _ = ((s.players.map playerCards).sum + Multiset.ofList picked)
                + (playerCards cp2 + Multiset.ofList picked) := by rw [hsum1]; abel
          _ = ((s.players.map playerCards).sum + Multiset.ofList picked) + playerCards cp1 := by
                rw [hpc2]
          _ = (s.players.map playerCards).sum + (playerCards cp1 + Multiset.ofList picked) := by
                abel
      exact add_right_cancel hc2
    set players2 := (s.players.set t tp1).set s.currentPlayerIndex cp2 with hpl2
    have htlen2 : t < players2.length := by
      rw [hpl2]
      simpa using ht
    have hgd2 : players2.getD t default = players2[t] := List.getD_eq_getElem _ _ htlen2
    set tp2 : Player := { players2.getD t default with isSapawed := true } with htp2
    have hpc3 : playerCards tp2 = playerCards (players2.getD t default) := rfl
    have hS3 := @sum_map_set Player (Multiset Card) _ playerCards players2 t tp2 htlen2
    have hsum3 : ((players2.set t tp2).map playerCards).sum
        = (players2.map playerCards).sum := by
      rw [← hgd2, hpc3] at hS3
      exact add_right_cancel hS3
    unfold allCards
    dsimp only
    rw [hsum3, hsum2]
    exact hsum
  · have hv' : isValidMeldO (s.players[t].exposedMelds[m].map some
        ++ pickCards (currentPlayer s).hand idxs) = false := by
      revert hv
      cases isValidMeldO (s.players[t].exposedMelds[m].map some
        ++ pickCards (currentPlayer s).hand idxs) <;> simp
    rw [if_pos (by rw [hv']; rfl)]
    exact ⟨hp3, hcur, hpile, hsum⟩

theorem handleCallDraw_conserves (s : GameState) (hc : Conserved s) :
    Conserved (handleCallDraw s) := by
  obtain ⟨hp3, hcur, hpile, hsum⟩ := hc
  unfold handleCallDraw
  cases hsc : s.players.map (fun p => (p.id, calculateHandPoints p.hand [])) with
  | nil => exact ⟨hp3, hcur, hpile, hsum⟩
  | cons first rest =>
    dsimp only
    refine ⟨by simp [hp3], hcur, hpile, ?_⟩
    unfold allCards
    dsimp only
    unfold allCards at hsum
    refine sum_playerCards_map' s.players _ ?_ _ _ hsum
    intro p
    rfl

theorem handleAutoSort_conserves (s : GameState) (i : Nat) (hc : Conserved s) :
    Conserved (handleAutoSort s i) := by
  obtain ⟨hp3, hcur, hpile, hsum⟩ := hc
  unfold handleAutoSort
  cases hpi : s.players[i]? with
  | none => exact ⟨hp3, hcur, hpile, hsum⟩
  | some p =>
    obtain ⟨hi, hpeq⟩ := List.getElem?_eq_some_iff.mp hpi
    dsimp only
    refine ⟨by simp [hp3], hcur, hpile, ?_⟩
    have hpc : playerCards { p with hand := p.hand.insertionSort autoSortLe }
        = playerCards p := by
      unfold playerCards
      dsimp only
      rw [Multiset.coe_eq_coe.mpr (List.perm_insertionSort autoSortLe p.hand)]
    have hS := @sum_map_set Player (Multiset Card) _ playerCards s.players i
      { p with hand := p.hand.insertionSort autoSortLe } hi
    rw [hpc, hpeq] at hS
    have hsum' := add_right_cancel hS
    unfold allCards
    dsimp only
    rw [hsum']
    exact hsum

theorem handleShuffle_conserves (s : GameState) (i : Nat) (rand : List Nat)
    (hc : Conserved s) : Conserved (handleShuffle s i rand) := by
  obtain ⟨hp3, hcur, hpile, hsum⟩ := hc
  unfold handleShuffle
  cases hpi : s.players[i]? with
  | none => exact ⟨hp3, hcur, hpile, hsum⟩
  | some p =>
    obtain ⟨hi, hpeq⟩ := List.getElem?_eq_some_iff.mp hpi
    dsimp only
    refine ⟨by simp [hp3], hcur, hpile, ?_⟩
    have hpc : playerCards { p with hand := fyLoop rand 0 p.hand (p.hand.length - 1) }
        = playerCards p := by
      unfold playerCards
      dsimp only
      rw [coe_fyLoop]
    have hS := @sum_map_set Player (Multiset Card) _ playerCards s.players i
      { p with hand := fyLoop rand 0 p.hand (p.hand.length - 1) } hi
    rw [hpc, hpeq] at hS
    have hsum' := add_right_cancel hS
    unfold allCards
    dsimp only
    rw [hsum']
    exact hsum


theorem coe_dropLast_getLast_toList (l : List Card) :
    Multiset.ofList l.dropLast + Multiset.ofList l.getLast?.toList = Multiset.ofList l := by
  cases hgl : l.getLast? with
  | none =>
    have hnil : l = [] := by
      cases l with
      | nil => rfl
      | cons a t => simp at hgl
    subst hnil
    rfl
  | some c =>
    have h := coe_dropLast_add l c hgl
    simpa [Option.toList] using h

theorem step_conserves (s : GameState) (actor : Nat) (a : Action)
    (hc : Conserved s) (hl : LegalAction s actor a) : Conserved (step s actor a) := by
  obtain ⟨hact, hcond⟩ := hl
  unfold step
  rw [hact]
  simp only [bne_self_eq_false, Bool.false_eq_true, if_false]
  unfold handlePlayerAction
  by_cases hguard : (s.currentPlayerIndex == 0 && !s.firstPlayerHasPlayed
      && isDrawAction a) = true
  · rw [if_pos hguard]
    exact hc
  · rw [if_neg hguard]
    cases a with
    | draw fd mi =>
      exact handleDraw_conserves s fd mi hc hcond.1 hcond.2
    | discard i =>
      dsimp only
      have h1 := handleDiscard_conserves s i hc hcond
      by_cases hf : (s.currentPlayerIndex == 0
          && !(handleDiscard s i).firstPlayerHasPlayed) = true
      · rw [if_pos hf]
        exact h1
      · rw [if_neg hf]
        exact h1
    | meld idxs =>
      exact handleMeld_conserves s idxs hc hcond.1 hcond.2
    | sapaw t m idxs =>
      exact handleSapaw_conserves s t m idxs hc hcond.1 hcond.2.1 hcond.2.2.1 hcond.2.2.2
    | callDraw =>
      exact handleCallDraw_conserves s hc
    | updateSelectedIndices idxs =>
      exact hc
    | autoSort =>
      exact handleAutoSort_conserves s s.currentPlayerIndex hc
    | shuffle rand =>
      exact handleShuffle_conserves s s.currentPlayerIndex rand hc
    | nextGame rand =>
      exact hcond.elim
    | resetGame rand =>
      exact hcond.elim

set_option maxRecDepth 10000 in
theorem startGame_conserved (rand : List Nat) :
    Conserved (startGame freshSession rand) := by
  unfold startGame
  rw [if_neg (by rw [show freshSession.players.length = PLAYERS_REQUIRED from rfl]; simp)]
  obtain ⟨hdeal, hlen⟩ := dealCards_conserves (createDeck rand) PLAYERS_REQUIRED 12
  obtain ⟨h0, h1, h2, h012⟩ := List.length_eq_three.mp hlen
  refine ⟨rfl, by simp [freshSession], by intro c hc; simp at hc, ?_⟩
  unfold allCards
  dsimp only
  have hfm : (List.filterMap id ([] : List (Option Card))) = [] := rfl
  rw [hfm]
  have hsplit := coe_dropLast_getLast_toList (dealCards (createDeck rand) PLAYERS_REQUIRED 12).2
  rw [h012]
  dsimp only [freshSession, mapWithIndex, freshPlayer]
  simp only [List.map_cons, List.map_nil, List.sum_cons, List.sum_nil, playerCards_eq]
  rw [h012] at hdeal
  unfold handsSum at hdeal
  simp only [List.map_cons, List.map_nil, List.sum_cons, List.sum_nil] at hdeal ⊢
  generalize hDk : (dealCards (createDeck rand) PLAYERS_REQUIRED 12).2 = Dk at hdeal hsplit ⊢
  have e0 : [h0, h1, h2].getD 0 ([] : List Card) = h0 := rfl
  have e1 : [h0, h1, h2].getD (0 + 1) ([] : List Card) = h1 := rfl
  have e2 : [h0, h1, h2].getD (0 + 1 + 1) ([] : List Card) = h2 := rfl
  have i0 : (((0 : Nat) == 0)) = true := rfl
  have i1 : (((0 + 1 : Nat) == 0)) = false := rfl
  have i2 : (((0 + 1 + 1 : Nat) == 0)) = false := rfl
  rw [e0, e1, e2, i0, i1, i2]
  simp only [eq_self_iff_true, if_true, Bool.false_eq_true, if_false, List.append_nil]
  rw [coe_append_ms]
  have hfull : Multiset.ofList (createDeck rand) = fullDeck := coe_createDeck rand
  rw [hfull] at hdeal
  rw [← hdeal, ← hsplit]
  have hnil : Multiset.ofList ([] : List Card) = 0 := rfl
  rw [hnil]
  abel


theorem applyTrace_conserves (tr : List (Nat × Action)) (s : GameState)
    (hc : Conserved s) (hleg : LegalTrace s tr) : Conserved (applyTrace s tr) := by
  induction tr generalizing s with
  | nil => exact hc
  | cons x rest ih =>
    obtain ⟨actor, a⟩ := x
    obtain ⟨ha, hrest⟩ := hleg
    exact ih (step s actor a) (step_conserves s actor a hc ha) hrest

set_option maxRecDepth 1000000 in
/-- C1, counterexample to the claim as stated: from a freshly started
3-player session, an in-turn discard of an in-bounds index followed by an
in-turn draw (from the discard pile, with meldIndices naming the same hand
slot twice) breaks card conservation: the resulting zones hold the 9 of
spades twice and the 9 of diamonds not at all, because the draw handler
validates the duplicated meld and then splices the two indices out of the
shrinking hand. -/
theorem C1_counterexample :
    (startGame freshSession seedC1x).currentPlayerIndex = 0 ∧
      0 < (currentPlayer (startGame freshSession seedC1x)).hand.length ∧
      (step (startGame freshSession seedC1x) 0 (Action.discard 0)).currentPlayerIndex = 1 ∧
      (step (startGame freshSession seedC1x) 0 (Action.discard 0)).hasDrawnThisTurn = false ∧
      allCards (step (startGame freshSession seedC1x) 0 (Action.discard 0)) = fullDeck ∧
      Multiset.count ⟨Suit.diamonds, Rank.r9⟩
        (allCards (step (step (startGame freshSession seedC1x) 0 (Action.discard 0)) 1
          (Action.draw false [0, 0]))) = 0 ∧
      Multiset.count ⟨Suit.spades, Rank.r9⟩
        (allCards (step (step (startGame freshSession seedC1x) 0 (Action.discard 0)) 1
          (Action.draw false [0, 0]))) = 2 := by
  decide

/-- C1 (amended): starting from a freshly started 3-player session, for
every sequence of legal actions — in-turn draw whose meldIndices, when
given, are distinct and in bounds, discard with in-bounds index, meld and
sapaw with valid distinct in-bounds indices, callDraw,
updateSelectedIndices, autoSort, shuffle — the multiset union of the deck,
the discard pile, every hand and every exposed and secret meld is exactly
the 52-card standard deck, with no duplicates and no omissions. -/
theorem C1_card_conservation (rand : List Nat) (tr : List (Nat × Action))
    (hleg : LegalTrace (startGame freshSession rand) tr) :
    allCards (applyTrace (startGame freshSession rand) tr) = fullDeck :=
  (applyTrace_conserves tr _ (startGame_conserved rand) hleg).2.2.2

set_option maxRecDepth 1000000 in
/-- Witness for C1: a concrete one-discard trace from a concrete shuffle. -/
theorem C1_card_conservation_witness :
    LegalTrace (startGame freshSession []) [(0, Action.discard 0)] ∧
      allCards (applyTrace (startGame freshSession []) [(0, Action.discard 0)]) = fullDeck := by
  have hleg : LegalTrace (startGame freshSession []) [(0, Action.discard 0)] :=
    ⟨⟨by decide, by decide⟩, trivial⟩
  exact ⟨hleg, C1_card_conservation [] [(0, Action.discard 0)] hleg⟩


theorem scoreLoop_secret_independent (fuel : Nat) (cards : List Card)
    (m1 m2 : List (List Card)) : scoreLoop fuel cards m1 = scoreLoop fuel cards m2 := by
  induction fuel generalizing cards m1 m2 with
  | zero => rfl
  | succ n ih =>
    unfold scoreLoop
    cases findAndRemoveMeld cards with
    | none => rfl
    | some p =>
      obtain ⟨meld, rest⟩ := p
      exact ih rest _ _

/-- C10: the result of calculateHandPoints does not depend on the
secretMelds argument — the source collects the secret melds into its working
list of melds but only ever sums the leftover cards. -/
theorem C10_secret_melds_independent (hand : List Card) (s1 s2 : List (List Card)) :
    calculateHandPoints hand s1 = calculateHandPoints hand s2 ∧
      calculateHandPoints hand s1 = calculateHandPoints hand [] :=
  ⟨scoreLoop_secret_independent _ _ _ _, scoreLoop_secret_independent _ _ _ _⟩

theorem scoreLoop_eq_residual (fuel : Nat) (cards : List Card) (m : List (List Card)) :
    scoreLoop fuel cards m = ((specResidual fuel cards).map calculateCardPoints).sum := by
  induction fuel generalizing cards m with
  | zero => rfl
  | succ n ih =>
    unfold scoreLoop specResidual
    cases findAndRemoveMeld cards with
    | none => rfl
    | some p =>
      obtain ⟨meld, rest⟩ := p
      exact ih rest _

theorem calculateCardPoints_eq_spec (c : Card) : calculateCardPoints c = specCardPoints c := by
  cases c with
  | mk s r => cases r <;> rfl

/-- C4: calculateHandPoints computes exactly the spec algorithm — repeatedly
extract the first extractable meld (3-of-a-kind by index-triple scan before
same-suit run on the rank-sorted hand), then sum Ace = 1, 2-10 = face,
J/Q/K = 10 over the residual; in particular the hand A-spades, 2-spades,
3-spades, K-hearts scores 10. -/
theorem C4_scoring (hand : List Card) (secretMelds : List (List Card)) :
    calculateHandPoints hand secretMelds = specHandPoints hand ∧
      calculateHandPoints [⟨Suit.spades, Rank.A⟩, ⟨Suit.spades, Rank.r2⟩,
        ⟨Suit.spades, Rank.r3⟩, ⟨Suit.hearts, Rank.K⟩] [] = 10 := by
  constructor
  · unfold calculateHandPoints specHandPoints
    rw [scoreLoop_eq_residual]
    exact congrArg List.sum (List.map_congr_left fun c _ => calculateCardPoints_eq_spec c)
  · decide


theorem ids_distinct (s : GameState) (hids : (s.players.map Player.id).Nodup)
    (i j : Nat) (hi : i < s.players.length) (hj : j < s.players.length) (hne : i ≠ j) :
    s.players[i].id ≠ s.players[j].id := by
  intro heq
  have hinj := List.nodup_iff_injective_get.mp hids
  have hi' : i < (s.players.map Player.id).length := by simpa using hi
  have hj' : j < (s.players.map Player.id).length := by simpa using hj
  have hgeq : (s.players.map Player.id).get ⟨i, hi'⟩
      = (s.players.map Player.id).get ⟨j, hj'⟩ := by
    simp only [List.get_eq_getElem, List.getElem_map]
    exact heq
  have hfin := hinj hgeq
  exact hne (by simpa using congrArg Fin.val hfin)

theorem set_getElem_self_eq {α : Type _} (l : List α) (i : Nat) (hi : i < l.length) :
    l.set i l[i] = l := by
  apply List.ext_getElem?
  intro n
  rw [List.getElem?_set]
  by_cases h : i = n
  · subst h
    simp [hi, List.getElem?_eq_getElem]
  · simp [h]

theorem handleTongits_spec (s : GameState)
    (hlen : s.currentPlayerIndex < s.players.length)
    (hids : (s.players.map Player.id).Nodup) :
    (handleTongits s).gameEnded = true ∧
    (handleTongits s).winner
      = some ((handleTongits s).players.getD s.currentPlayerIndex default) ∧
    ((handleTongits s).players.getD s.currentPlayerIndex default).score = 0 ∧
    ((handleTongits s).players.getD s.currentPlayerIndex default).consecutiveWins
      = (currentPlayer s).consecutiveWins + 1 ∧
    ∀ j, j < s.players.length → j ≠ s.currentPlayerIndex →
      ((handleTongits s).players.getD j default).score
          = calculateHandPoints (s.players.getD j default).hand [] ∧
        ((handleTongits s).players.getD j default).consecutiveWins = 0 := by
  have hcp : currentPlayer s = s.players[s.currentPlayerIndex] :=
    List.getD_eq_getElem _ _ hlen
  unfold handleTongits
  dsimp only
  have hgd : ∀ (k : Nat) (hk : k < s.players.length),
      (s.players.map (tongitsUpd (currentPlayer s).id)).getD k default
        = tongitsUpd (currentPlayer s).id (s.players.get ⟨k, hk⟩) := by
    intro k hk
    have hk' : k < (s.players.map (tongitsUpd (currentPlayer s).id)).length := by
      simpa using hk
    rw [List.getD_eq_getElem _ _ hk', List.getElem_map]
    rfl
  have hcur_case : ((s.players.get ⟨s.currentPlayerIndex, hlen⟩).id
      == (currentPlayer s).id) = true := by
    rw [hcp]
    exact beq_self_eq_true _
  refine ⟨rfl, rfl, ?_, ?_, ?_⟩
  · rw [hgd s.currentPlayerIndex hlen]
    unfold tongitsUpd
    rw [hcur_case]
    rfl
  · rw [hgd s.currentPlayerIndex hlen]
    unfold tongitsUpd
    rw [hcur_case]
    simp only [if_true]
    rw [hcp]
    rfl
  · intro j hjlen hjne
    have hne : s.players[j].id ≠ s.players[s.currentPlayerIndex].id :=
      ids_distinct s hids j s.currentPlayerIndex hjlen hlen hjne
    have hjcase : ((s.players.get ⟨j, hjlen⟩).id == (currentPlayer s).id) = false := by
      rw [hcp]
      exact beq_eq_false_iff_ne.mpr hne
    rw [hgd j hjlen]
    unfold tongitsUpd
    rw [hjcase]
    simp only [Bool.false_eq_true, if_false]
    rw [List.getD_eq_getElem _ _ hjlen]
    exact ⟨by trivial, by trivial⟩

theorem handleMeld_tongits_eq (s : GameState) (idxs : List Nat)
    (hvalid : isValidMeldO (pickCards (currentPlayer s).hand idxs) = true)
    (hempty : removeIndicesDesc (currentPlayer s).hand idxs = []) :
    handleMeld s idxs = handleTongits { s with
      players := s.players.set s.currentPlayerIndex
        { currentPlayer s with
          exposedMelds := (currentPlayer s).exposedMelds
            ++ [(pickCards (currentPlayer s).hand idxs).filterMap id],
          hand := removeIndicesDesc (currentPlayer s).hand idxs },
      selectedCardIndices := [] } := by
  unfold handleMeld
  rw [if_neg (by rw [hvalid]; simp)]
  dsimp only
  rw [hempty]
  rw [if_pos (show (List.isEmpty ([] : List Card)) = true from rfl)]

/-- C7: a meld action whose named cards validate and empty the hand of the
acting player immediately ends the round as a Tongits win: gameEnded
becomes true, the winner field holds the acting player, their score is
forced to 0 with their streak incremented, and every other seat is scored
by the Scoring Engine on its current hand with its streak reset to 0. -/
theorem C7_tongits (s : GameState) (idxs : List Nat) (j : Nat)
    (hp3 : s.players.length = 3) (hcur : s.currentPlayerIndex < 3)
    (hids : (s.players.map Player.id).Nodup)
    (hvalid : isValidMeldO (pickCards (currentPlayer s).hand idxs) = true)
    (hempty : removeIndicesDesc (currentPlayer s).hand idxs = [])
    (hj : j < 3) (hjne : j ≠ s.currentPlayerIndex) :
    (step s s.currentPlayerIndex (Action.meld idxs)).gameEnded = true ∧
    (step s s.currentPlayerIndex (Action.meld idxs)).winner
      = some ((step s s.currentPlayerIndex (Action.meld idxs)).players.getD
          s.currentPlayerIndex default) ∧
    ((step s s.currentPlayerIndex (Action.meld idxs)).players.getD
        s.currentPlayerIndex default).score = 0 ∧
    ((step s s.currentPlayerIndex (Action.meld idxs)).players.getD
        s.currentPlayerIndex default).consecutiveWins
      = (currentPlayer s).consecutiveWins + 1 ∧
    ((step s s.currentPlayerIndex (Action.meld idxs)).players.getD j default).score
      = calculateHandPoints (s.players.getD j default).hand [] ∧
    ((step s s.currentPlayerIndex (Action.meld idxs)).players.getD j default).consecutiveWins
      = 0 := by
  have hcurlen : s.currentPlayerIndex < s.players.length := by omega
  have hjlen : j < s.players.length := by omega
  have hstep : step s s.currentPlayerIndex (Action.meld idxs) = handleMeld s idxs := by
    unfold step handlePlayerAction
    simp [isDrawAction]
  have hcp : currentPlayer s = s.players[s.currentPlayerIndex] :=
    List.getD_eq_getElem _ _ hcurlen
  rw [hstep, handleMeld_tongits_eq s idxs hvalid hempty]
  have hlen' : ({ s with
      players := s.players.set s.currentPlayerIndex
        { currentPlayer s with
          exposedMelds := (currentPlayer s).exposedMelds
            ++ [(pickCards (currentPlayer s).hand idxs).filterMap id],
          hand := removeIndicesDesc (currentPlayer s).hand idxs },
      selectedCardIndices := [] } : GameState).currentPlayerIndex
      < ({ s with
      players := s.players.set s.currentPlayerIndex
        { currentPlayer s with
          exposedMelds := (currentPlayer s).exposedMelds
            ++ [(pickCards (currentPlayer s).hand idxs).filterMap id],
          hand := removeIndicesDesc (currentPlayer s).hand idxs },
      selectedCardIndices := [] } : GameState).players.length := by
    simpa using hcurlen
  have hmlen : s.currentPlayerIndex < (s.players.map Player.id).length := by
    simpa using hcurlen
  have hids' : (({ s with
      players := s.players.set s.currentPlayerIndex
        { currentPlayer s with
          exposedMelds := (currentPlayer s).exposedMelds
            ++ [(pickCards (currentPlayer s).hand idxs).filterMap id],
          hand := removeIndicesDesc (currentPlayer s).hand idxs },
      selectedCardIndices := [] } : GameState).players.map Player.id).Nodup := by
    dsimp only
    rw [List.map_set]
    have hidself : ({ currentPlayer s with
        exposedMelds := (currentPlayer s).exposedMelds
          ++ [(pickCards (currentPlayer s).hand idxs).filterMap id],
        hand := removeIndicesDesc (currentPlayer s).hand idxs } : Player).id
        = (s.players.map Player.id)[s.currentPlayerIndex] := by
      rw [List.getElem_map]
      rw [hcp]
    rw [hidself, set_getElem_self_eq _ _ hmlen]
    exact hids
  obtain ⟨hge, hw, hsc, hcw, hoth⟩ := handleTongits_spec _ hlen' hids'
  refine ⟨hge, hw, hsc, ?_, ?_, ?_⟩
  · rw [hcw]
    have hcps : currentPlayer { s with
        players := s.players.set s.currentPlayerIndex
          { currentPlayer s with
            exposedMelds := (currentPlayer s).exposedMelds
              ++ [(pickCards (currentPlayer s).hand idxs).filterMap id],
            hand := removeIndicesDesc (currentPlayer s).hand idxs },
        selectedCardIndices := [] }
        = { currentPlayer s with
            exposedMelds := (currentPlayer s).exposedMelds
              ++ [(pickCards (currentPlayer s).hand idxs).filterMap id],
            hand := removeIndicesDesc (currentPlayer s).hand idxs } := by
      unfold currentPlayer
      dsimp only
      rw [List.getD_eq_getElem _ _ (by simpa using hcurlen), List.getElem_set_self]
    rw [hcps]
  · have hres := (hoth j (by simpa using hjlen) hjne).1
    rw [hres]
    dsimp only
    have hgds : (s.players.set s.currentPlayerIndex
        { currentPlayer s with
          exposedMelds := (currentPlayer s).exposedMelds
            ++ [(pickCards (currentPlayer s).hand idxs).filterMap id],
          hand := removeIndicesDesc (currentPlayer s).hand idxs }).getD j default
        = s.players.getD j default := by
      rw [List.getD_eq_getElem _ _ (by simpa using hjlen),
        List.getElem_set_ne (show s.currentPlayerIndex ≠ j from fun h => hjne h.symm),
        List.getD_eq_getElem _ _ hjlen]
    rw [hgds]
  · exact (hoth j (by simpa using hjlen) hjne).2

set_option maxRecDepth 100000 in
/-- Witness for C7 at a concrete session. -/
theorem C7_tongits_witness :
    (step tongitsWitState tongitsWitState.currentPlayerIndex
        (Action.meld [0, 1, 2])).gameEnded = true ∧
    ((step tongitsWitState tongitsWitState.currentPlayerIndex
        (Action.meld [0, 1, 2])).players.getD 1 default).score
      = calculateHandPoints (tongitsWitState.players.getD 1 default).hand [] :=
  ⟨(C7_tongits tongitsWitState [0, 1, 2] 1 (by decide) (by decide) (by decide) (by decide)
      (by decide) (by decide) (by decide)).1,
   (C7_tongits tongitsWitState [0, 1, 2] 1 (by decide) (by decide) (by decide) (by decide)
      (by decide) (by decide) (by decide)).2.2.2.2.1⟩



/-- Claim C8: callDraw ends the round at once: gameEnded becomes true, every
seat's score is set to the scoring-engine value of its current hand with no
secret melds, the winner is the seat with the strictly lowest such score
(ties resolved in favor of the earliest seat), the winner's consecutiveWins
is incremented and every other seat's is reset to 0. -/

theorem C8_calldraw (s : GameState)
    (hp3 : s.players.length = 3)
    (hids : (s.players.map Player.id).Nodup) :
    (step s s.currentPlayerIndex Action.callDraw).gameEnded = true ∧
    (∀ j, j < 3 →
      ((step s s.currentPlayerIndex Action.callDraw).players.getD j default).score
        = calculateHandPoints (s.players.getD j default).hand []) ∧
    ∃ w, w < 3 ∧
      (∀ j, j < 3 → calculateHandPoints (s.players.getD w default).hand []
        ≤ calculateHandPoints (s.players.getD j default).hand []) ∧
      (∀ j, j < w → calculateHandPoints (s.players.getD w default).hand []
        < calculateHandPoints (s.players.getD j default).hand []) ∧
      (step s s.currentPlayerIndex Action.callDraw).winner
        = some ((step s s.currentPlayerIndex Action.callDraw).players.getD w default) ∧
      ((step s s.currentPlayerIndex Action.callDraw).players.getD w default).consecutiveWins
        = (s.players.getD w default).consecutiveWins + 1 ∧
      ∀ j, j < 3 → j ≠ w →
        ((step s s.currentPlayerIndex Action.callDraw).players.getD j
            default).consecutiveWins = 0 := by
  have hstep : step s s.currentPlayerIndex Action.callDraw = handleCallDraw s := by
    unfold step handlePlayerAction
    simp [isDrawAction]
  rw [hstep]
  obtain ⟨a, b, c, habc⟩ := List.length_eq_three.mp hp3
  rw [habc] at hids
  simp only [List.map_cons, List.map_nil, List.nodup_cons, List.mem_cons,
    List.mem_singleton, List.not_mem_nil, List.nodup_nil] at hids
  unfold handleCallDraw
  rw [habc]
  dsimp only [List.map_cons, List.map_nil, List.foldl_cons, List.foldl_nil]
  have hab : a.id ≠ b.id := fun h => hids.1 (Or.inl h)
  have hac : a.id ≠ c.id := fun h => hids.1 (Or.inr (Or.inl h))
  have hbc : b.id ≠ c.id := fun h => hids.2.1 (Or.inl h)
  have hab' : (a.id == b.id) = false := beq_eq_false_iff_ne.mpr hab
  have hac' : (a.id == c.id) = false := beq_eq_false_iff_ne.mpr hac
  have hbc' : (b.id == c.id) = false := beq_eq_false_iff_ne.mpr hbc
  have hba' : (b.id == a.id) = false := beq_eq_false_iff_ne.mpr (Ne.symm hab)
  have hca' : (c.id == a.id) = false := beq_eq_false_iff_ne.mpr (Ne.symm hac)
  have hcb' : (c.id == b.id) = false := beq_eq_false_iff_ne.mpr (Ne.symm hbc)
  refine ⟨rfl, ?_, ?_⟩
  · intro j hj
    interval_cases j
    · simp [hba', hca']
    · simp [hab', hcb']
    · simp [hac', hbc']
  · by_cases h1 : calculateHandPoints b.hand [] < calculateHandPoints a.hand []
    · simp only [if_pos h1]
      by_cases h2 : calculateHandPoints c.hand [] < calculateHandPoints b.hand []
      · simp only [if_pos h2]
        refine ⟨2, by norm_num, ?_, ?_, ?_, ?_, ?_⟩
        · intro j hj
          interval_cases j <;> simp <;> omega
        · intro j hj
          interval_cases j <;> simp <;> omega
        · simp [hac', hbc']
        · simp [hac', hbc']
        · intro j hj hjw
          interval_cases j <;> simp [hac', hbc'] at hjw ⊢
      · simp only [if_neg h2]
        refine ⟨1, by norm_num, ?_, ?_, ?_, ?_, ?_⟩
        · intro j hj
          interval_cases j <;> simp <;> omega
        · intro j hj
          interval_cases j <;> simp <;> omega
        · simp [hab', hcb']
        · simp [hab', hcb']
        · intro j hj hjw
          interval_cases j <;> simp [hab', hcb'] at hjw ⊢
    · simp only [if_neg h1]
      by_cases h2 : calculateHandPoints c.hand [] < calculateHandPoints a.hand []
      · simp only [if_pos h2]
        refine ⟨2, by norm_num, ?_, ?_, ?_, ?_, ?_⟩
        · intro j hj
          interval_cases j <;> simp <;> omega
        · intro j hj
          interval_cases j <;> simp <;> omega
        · simp [hac', hbc']
        · simp [hac', hbc']
        · intro j hj hjw
          interval_cases j <;> simp [hac', hbc'] at hjw ⊢
      · simp only [if_neg h2]
        refine ⟨0, by norm_num, ?_, ?_, ?_, ?_, ?_⟩
        · intro j hj
          interval_cases j <;> simp <;> omega
        · intro j hj
          omega
        · simp [hba', hca']
        · simp [hba', hca']
        · intro j hj hjw
          interval_cases j <;> simp [hba', hca'] at hjw ⊢

set_option maxRecDepth 100000 in
/-- Witness for C8 at a concrete session. -/
theorem C8_calldraw_witness :
    (step callDrawWitState callDrawWitState.currentPlayerIndex
        Action.callDraw).gameEnded = true ∧
    ((step callDrawWitState callDrawWitState.currentPlayerIndex
        Action.callDraw).players.getD 0 default).score
      = calculateHandPoints (callDrawWitState.players.getD 0 default).hand [] :=
  ⟨(C8_calldraw callDrawWitState (by decide) (by decide)).1,
   (C8_calldraw callDrawWitState (by decide) (by decide)).2.1 0 (by decide)⟩


set_option maxRecDepth 1000000 in
/-- Counterexample to claim C9: from a started session in which seat 0 holds
the four nines, seat 0 melds three of them and then sapaws its own exposed
meld with the fourth; every action is performed by seat 0 itself, the meld
grows to four cards, yet seat 0 ends with isSapawed = true, which the claim
says can only happen through a sapaw by a different seat. -/
theorem C9_counterexample :
    ((applyTrace (startGame freshSession seedC9)
        [(0, Action.meld [0, 1, 2]), (0, Action.sapaw 0 0 [0])]).players.getD 0
          default).isSapawed = true ∧
    (((applyTrace (startGame freshSession seedC9)
        [(0, Action.meld [0, 1, 2]), (0, Action.sapaw 0 0 [0])]).players.getD 0
          default).exposedMelds.getD 0 []).length = 4 ∧
    ((startGame freshSession seedC9).players.getD 0 default).isSapawed = false := by
  decide

theorem getD_set_ne (l : List Player) (i j : Nat) (x : Player) (h : i ≠ j) :
    (l.set i x).getD j default = l.getD j default := by
  by_cases hj : j < l.length
  · rw [List.getD_eq_getElem _ _ (by simpa using hj), List.getElem_set_ne h,
      List.getD_eq_getElem _ _ hj]
  · rw [List.getD_eq_default _ _ (by simpa using Nat.le_of_not_lt hj),
      List.getD_eq_default _ _ (Nat.le_of_not_lt hj)]

theorem isSapawed_getD_set (l : List Player) (i j : Nat) (x : Player)
    (hp : x.isSapawed = (l.getD i default).isSapawed) :
    ((l.set i x).getD j default).isSapawed = (l.getD j default).isSapawed := by
  by_cases hj : j < l.length
  · rw [List.getD_eq_getElem _ _ (by simpa using hj), List.getD_eq_getElem _ _ hj]
    by_cases hij : i = j
    · subst hij
      rw [List.getElem_set_self, hp, List.getD_eq_getElem _ _ hj]
    · rw [List.getElem_set_ne hij]
  · rw [List.getD_eq_default _ _ (by simpa using Nat.le_of_not_lt hj),
      List.getD_eq_default _ _ (Nat.le_of_not_lt hj)]

theorem isSapawed_getD_map (l : List Player) (j : Nat) (f : Player → Player)
    (hf : ∀ p, (f p).isSapawed = p.isSapawed) :
    ((l.map f).getD j default).isSapawed = (l.getD j default).isSapawed := by
  by_cases hj : j < l.length
  · rw [List.getD_eq_getElem _ _ (by simpa using hj), List.getElem_map, hf,
      List.getD_eq_getElem _ _ hj]
  · rw [List.getD_eq_default _ _ (by simpa using Nat.le_of_not_lt hj),
      List.getD_eq_default _ _ (Nat.le_of_not_lt hj)]

/-- Claim C9 (amended): a successful sapaw targeting seat t sets that seat's
isSapawed flag regardless of which seat performs it, including t itself;
a successful sapaw leaves every other seat's flag unchanged; and no other
in-round action (draw, discard, meld, callDraw, updateSelectedIndices,
autoSort, shuffle) ever changes any seat's isSapawed flag. -/
theorem C9_sapaw_flag (s : GameState) (t m : Nat) (idxs : List Nat)
    (tp : Player) (base : List Card)
    (htp : s.players[t]? = some tp)
    (hbase : tp.exposedMelds[m]? = some base)
    (hvalid : isValidMeldO (base.map some
      ++ pickCards (currentPlayer s).hand idxs) = true) :
    ((handleSapaw s t m idxs).players.getD t default).isSapawed = true ∧
    (∀ j, j ≠ t →
      ((handleSapaw s t m idxs).players.getD j default).isSapawed
        = (s.players.getD j default).isSapawed) ∧
    ∀ actor a j, isInRoundNonSapaw a = true →
      ((step s actor a).players.getD j default).isSapawed
        = (s.players.getD j default).isSapawed := by
  obtain ⟨ht, -⟩ := List.getElem?_eq_some_iff.mp htp
  have hns : ¬((!isValidMeldO (base.map some
      ++ pickCards (currentPlayer s).hand idxs)) = true) := by
    rw [hvalid]; decide
  refine ⟨?_, ?_, ?_⟩
  · unfold handleSapaw
    rw [htp]
    dsimp only
    rw [hbase]
    dsimp only
    rw [if_neg hns]
    dsimp only
    rw [List.getD_eq_getElem _ _ (by simpa using ht), List.getElem_set_self]
  · intro j hj
    unfold handleSapaw
    rw [htp]
    dsimp only
    rw [hbase]
    dsimp only
    rw [if_neg hns]
    dsimp only
    rw [getD_set_ne _ _ _ _ (fun he => hj he.symm)]
    refine (isSapawed_getD_set _ _ _ _ ?_).trans
      (congrArg Player.isSapawed (getD_set_ne _ _ _ _ (fun he => hj he.symm)))
    rfl
  · intro actor a j ha
    unfold step
    by_cases hact : (actor != s.currentPlayerIndex) = true
    · rw [if_pos hact]
    · rw [if_neg hact]
      unfold handlePlayerAction
      by_cases hguard : (actor == 0 && !s.firstPlayerHasPlayed && isDrawAction a) = true
      · rw [if_pos hguard]
      · rw [if_neg hguard]
        cases a with
        | draw fromDeck meldIndices =>
          dsimp only
          unfold handleDraw
          repeat' ((try dsimp only); split)
          all_goals first
            | rfl
            | (refine isSapawed_getD_set _ _ _ _ ?_; rfl)
        | discard cardIndex =>
          dsimp only
          unfold handleDiscard
          repeat' ((try dsimp only); split)
          all_goals first
            | rfl
            | (refine isSapawed_getD_set _ _ _ _ ?_; rfl)
        | meld cardIndices =>
          dsimp only
          unfold handleMeld
          repeat' ((try dsimp only); split)
          all_goals first
            | rfl
            | (refine isSapawed_getD_set _ _ _ _ ?_; rfl)
            | (unfold handleTongits
               (try dsimp only)
               refine (isSapawed_getD_map _ _ _ ?_).trans ?_
               · intro p
                 unfold tongitsUpd
                 split <;> rfl
               · refine isSapawed_getD_set _ _ _ _ ?_
                 rfl)
        | sapaw tp tm cardIndices => exact Bool.noConfusion ha
        | callDraw =>
          dsimp only
          unfold handleCallDraw
          repeat' ((try dsimp only); split)
          all_goals first
            | rfl
            | (refine isSapawed_getD_map _ _ _ ?_; intro p; rfl)
        | updateSelectedIndices indices => rfl
        | autoSort =>
          dsimp only
          unfold handleAutoSort
          split
          · rfl
          · rename_i p hsome
            refine isSapawed_getD_set _ _ _ _ ?_
            simp [List.getD_eq_getElem?_getD, hsome]
        | shuffle rand =>
          dsimp only
          unfold handleShuffle
          split
          · rfl
          · rename_i p hsome
            refine isSapawed_getD_set _ _ _ _ ?_
            simp [List.getD_eq_getElem?_getD, hsome]
        | nextGame rand => exact Bool.noConfusion ha
        | resetGame rand => exact Bool.noConfusion ha

set_option maxRecDepth 100000 in
/-- Witness for C9 at a concrete session. -/
theorem C9_sapaw_flag_witness :
    ((handleSapaw sapawWitState 1 0 [0]).players.getD 1 default).isSapawed = true ∧
    ((step sapawWitState 0 (Action.discard 0)).players.getD 1 default).isSapawed
      = (sapawWitState.players.getD 1 default).isSapawed :=
  ⟨(C9_sapaw_flag sapawWitState 1 0 [0] _ _ rfl rfl (by decide)).1,
   (C9_sapaw_flag sapawWitState 1 0 [0] _ _ rfl rfl (by decide)).2.2 0
      (Action.discard 0) 1 (by decide)⟩


set_option maxRecDepth 1000000 in
/-- Counterexample to claim C5: after a full first rotation (seat 0 has
already made its first discard of the round, so firstPlayerHasPlayed is true
and its turn counter is 1), seat 0 comes to act again with
hasDrawnThisTurn = false; the claim says this discard must be rejected, yet
the code accepts it: the turn advances to seat 1 and the hand shrinks from
12 cards to 11. -/
theorem C5_counterexample :
    (applyTrace (startGame freshSession idSeed)
      [(0, Action.discard 0), (1, Action.draw true []), (1, Action.discard 0),
       (2, Action.draw true []), (2, Action.discard 0)]).currentPlayerIndex = 0 ∧
    (applyTrace (startGame freshSession idSeed)
      [(0, Action.discard 0), (1, Action.draw true []), (1, Action.discard 0),
       (2, Action.draw true []), (2, Action.discard 0)]).hasDrawnThisTurn = false ∧
    (applyTrace (startGame freshSession idSeed)
      [(0, Action.discard 0), (1, Action.draw true []), (1, Action.discard 0),
       (2, Action.draw true []), (2, Action.discard 0)]).firstPlayerHasPlayed = true ∧
    ((applyTrace (startGame freshSession idSeed)
      [(0, Action.discard 0), (1, Action.draw true []), (1, Action.discard 0),
       (2, Action.draw true []), (2, Action.discard 0)]).players.getD 0
        default).turnsPlayed = 1 ∧
    (applyTrace (startGame freshSession idSeed)
      [(0, Action.discard 0), (1, Action.draw true []), (1, Action.discard 0),
       (2, Action.draw true []), (2, Action.discard 0), (0, Action.discard 0)]
      ).currentPlayerIndex = 1 ∧
    ((applyTrace (startGame freshSession idSeed)
      [(0, Action.discard 0), (1, Action.draw true []), (1, Action.discard 0),
       (2, Action.draw true []), (2, Action.discard 0), (0, Action.discard 0)]
      ).players.getD 0 default).hand.length = 11 ∧
    ((applyTrace (startGame freshSession idSeed)
      [(0, Action.discard 0), (1, Action.draw true []), (1, Action.discard 0),
       (2, Action.draw true []), (2, Action.discard 0)]).players.getD 0
        default).hand.length = 12 := by
  decide

/-- Claim C5 (amended): a discard by the current seat is rejected exactly
when that seat has not drawn this turn and is not seat 0 (seat 0 may always
discard without drawing, not only on its first turn of the round); an
accepted discard with an in-bounds index moves the named hand card to the
top of the discard pile, advances `currentPlayerIndex` to (old+1) mod the
player count, resets `hasDrawnThisTurn`, removes the card from the hand and
increments the seat's turn counter; and no action other than discard (and
the game-boundary resets) ever changes `currentPlayerIndex`. -/
theorem C5_discard (s : GameState) (i : Nat) :
    (s.hasDrawnThisTurn = false → s.currentPlayerIndex ≠ 0 →
      step s s.currentPlayerIndex (Action.discard i) = s) ∧
    ((s.hasDrawnThisTurn = true ∨ s.currentPlayerIndex = 0) →
      i < (currentPlayer s).hand.length →
      (step s s.currentPlayerIndex (Action.discard i)).discardPile
          = s.discardPile ++ [some ((currentPlayer s).hand.getD i default)] ∧
      (step s s.currentPlayerIndex (Action.discard i)).currentPlayerIndex
          = (s.currentPlayerIndex + 1) % s.players.length ∧
      (step s s.currentPlayerIndex (Action.discard i)).hasDrawnThisTurn = false ∧
      ((step s s.currentPlayerIndex (Action.discard i)).players.getD
          s.currentPlayerIndex default).hand = (currentPlayer s).hand.eraseIdx i ∧
      ((step s s.currentPlayerIndex (Action.discard i)).players.getD
          s.currentPlayerIndex default).turnsPlayed
        = (currentPlayer s).turnsPlayed + 1) ∧
    ∀ actor a, keepsTurn a = true →
      (step s actor a).currentPlayerIndex = s.currentPlayerIndex := by
  refine ⟨?_, ?_, ?_⟩
  · intro h0 hne
    unfold step handlePlayerAction
    rw [if_neg (by simp)]
    dsimp only [isDrawAction]
    rw [if_neg (by simp)]
    have hg : (!s.hasDrawnThisTurn && s.currentPlayerIndex != 0) = true := by
      rw [h0]; simp [hne]
    unfold handleDiscard
    rw [if_pos hg]
    rw [if_neg (by simp [hne])]
  · intro hacc hi
    have hcl : s.currentPlayerIndex < s.players.length := by
      by_contra hcl
      have : currentPlayer s = default := by
        unfold currentPlayer
        exact List.getD_eq_default _ _ (Nat.le_of_not_lt hcl)
      rw [this] at hi
      exact absurd hi (Nat.not_lt_zero i)
    unfold step handlePlayerAction
    rw [if_neg (by simp)]
    dsimp only [isDrawAction]
    rw [if_neg (by simp)]
    have hg : (!s.hasDrawnThisTurn && s.currentPlayerIndex != 0) = false := by
      rcases hacc with h | h
      · rw [h]; simp
      · rw [h]; simp
    unfold handleDiscard
    simp only [hg, Bool.false_eq_true, if_false]
    have hget : (currentPlayer s).hand[i]?
        = some ((currentPlayer s).hand.getD i default) := by
      rw [List.getElem?_eq_getElem hi, List.getD_eq_getElem _ _ hi]
    have hsets : ∀ q : Player,
        ((s.players.set s.currentPlayerIndex q).getD s.currentPlayerIndex default) = q :=
      fun q => by
        rw [List.getD_eq_getElem _ _ (by simpa using hcl), List.getElem_set_self]
    by_cases hw : (s.currentPlayerIndex == 0 && !s.firstPlayerHasPlayed) = true
    · rw [if_pos hw]
      dsimp only
      rw [hget, hsets]
      exact ⟨rfl, rfl, rfl, rfl, rfl⟩
    · rw [if_neg hw]
      dsimp only
      rw [hget, hsets]
      exact ⟨rfl, rfl, rfl, rfl, rfl⟩
  · intro actor a ha
    unfold step
    by_cases hact : (actor != s.currentPlayerIndex) = true
    · rw [if_pos hact]
    · rw [if_neg hact]
      unfold handlePlayerAction
      by_cases hguard : (actor == 0 && !s.firstPlayerHasPlayed && isDrawAction a) = true
      · rw [if_pos hguard]
      · rw [if_neg hguard]
        cases a with
        | draw fromDeck meldIndices =>
          dsimp only
          unfold handleDraw
          repeat' ((try dsimp only); split)
          all_goals rfl
        | discard cardIndex => exact Bool.noConfusion ha
        | meld cardIndices =>
          dsimp only
          unfold handleMeld
          repeat' ((try dsimp only); split)
          all_goals rfl
        | sapaw tp tm cardIndices =>
          dsimp only
          unfold handleSapaw
          repeat' ((try dsimp only); split)
          all_goals rfl
        | callDraw =>
          dsimp only
          unfold handleCallDraw
          repeat' ((try dsimp only); split)
          all_goals rfl
        | updateSelectedIndices indices => rfl
        | autoSort =>
          dsimp only
          unfold handleAutoSort
          split <;> rfl
        | shuffle rand =>
          dsimp only
          unfold handleShuffle
          split <;> rfl
        | nextGame rand => exact Bool.noConfusion ha
        | resetGame rand => exact Bool.noConfusion ha

set_option maxRecDepth 100000 in
/-- Witness for C5 at a concrete session. -/
theorem C5_discard_witness :
    (step discardWitState discardWitState.currentPlayerIndex
        (Action.discard 0)).currentPlayerIndex
      = (discardWitState.currentPlayerIndex + 1) % discardWitState.players.length ∧
    (step discardWitState 1 Action.autoSort).currentPlayerIndex
      = discardWitState.currentPlayerIndex :=
  ⟨((C5_discard discardWitState 0).2.1 (Or.inl rfl) (by decide)).2.1,
   (C5_discard discardWitState 0).2.2 1 Action.autoSort (by decide)⟩


set_option maxRecDepth 100000 in
/-- Counterexample to claim C2: a request to draw from the empty discard
pile is not a no-op (it falls back to the deck: the deck empties, the hand
grows and hasDrawnThisTurn becomes true), and a discard with the
out-of-bounds index 99 is not a no-op either (the hand is untouched but an
undefined entry is pushed onto the pile and the turn advances). -/
theorem C2_counterexample :
    ((step emptyPileDrawState 1 (Action.draw false [])).deck = [] ∧
      ((step emptyPileDrawState 1 (Action.draw false [])).players.getD 1
          default).hand = [⟨Suit.hearts, Rank.r3⟩, ⟨Suit.clubs, Rank.r7⟩] ∧
      (step emptyPileDrawState 1 (Action.draw false [])).hasDrawnThisTurn = true) ∧
    ((step oobDiscardState 1 (Action.discard 99)).discardPile = [none] ∧
      (step oobDiscardState 1 (Action.discard 99)).currentPlayerIndex = 2 ∧
      ((step oobDiscardState 1 (Action.discard 99)).players.getD 1
          default).hand = [⟨Suit.hearts, Rank.r3⟩]) := by
  decide

/-- Claim C2 (amended): the genuine rule violations are silent no-ops that
return the session unchanged: acting out of turn, drawing when already
drawn, a draw refused by the seat-0 opening guard, drawing from an
exhausted deck, a pile draw whose top card cannot form a meld, an invalid
meld selection, a sapaw of an in-bounds target meld that fails validation,
and a discard by a seat that has not drawn and is not seat 0.  Excluded are
the two corrected behaviours (empty-pile draws fall back to the deck, and
out-of-bounds discard indices are accepted). -/
theorem C2_noops (s : GameState) :
    (∀ actor a, actor ≠ s.currentPlayerIndex → step s actor a = s) ∧
    (∀ fd mi, s.hasDrawnThisTurn = true →
      step s s.currentPlayerIndex (Action.draw fd mi) = s) ∧
    (∀ fd mi, s.currentPlayerIndex = 0 → s.firstPlayerHasPlayed = false →
      step s 0 (Action.draw fd mi) = s) ∧
    (∀ fd mi, s.deck = [] → (fd = true ∨ s.discardPile = []) →
      step s s.currentPlayerIndex (Action.draw fd mi) = s) ∧
    (∀ mi c, s.discardPile.getLast? = some (some c) →
      (canFormMeldWithCard c (currentPlayer s).hand).1 = false →
      step s s.currentPlayerIndex (Action.draw false mi) = s) ∧
    (∀ idxs, isValidMeldO (pickCards (currentPlayer s).hand idxs) = false →
      step s s.currentPlayerIndex (Action.meld idxs) = s) ∧
    (∀ t m idxs tp base, s.players[t]? = some tp →
      tp.exposedMelds[m]? = some base →
      isValidMeldO (base.map some ++ pickCards (currentPlayer s).hand idxs) = false →
      step s s.currentPlayerIndex (Action.sapaw t m idxs) = s) ∧
    (s.hasDrawnThisTurn = false → s.currentPlayerIndex ≠ 0 →
      ∀ i, step s s.currentPlayerIndex (Action.discard i) = s) := by
  refine ⟨?_, ?_, ?_, ?_, ?_, ?_, ?_, ?_⟩
  · intro actor a hne
    unfold step
    rw [if_pos (by simp [hne])]
  · intro fd mi hd
    unfold step handlePlayerAction
    rw [if_neg (by simp)]
    by_cases hguard : (s.currentPlayerIndex == 0 && !s.firstPlayerHasPlayed
        && isDrawAction (Action.draw fd mi)) = true
    · rw [if_pos hguard]
    · rw [if_neg hguard]
      dsimp only
      unfold handleDraw
      rw [if_pos hd]
  · intro fd mi hc hf
    unfold step
    rw [if_neg (by simp [hc])]
    unfold handlePlayerAction
    rw [if_pos (by simp [hf, isDrawAction])]
  · intro fd mi hdeck hor
    unfold step handlePlayerAction
    rw [if_neg (by simp)]
    by_cases hguard : (s.currentPlayerIndex == 0 && !s.firstPlayerHasPlayed
        && isDrawAction (Action.draw fd mi)) = true
    · rw [if_pos hguard]
    · rw [if_neg hguard]
      dsimp only
      unfold handleDraw
      by_cases hd : s.hasDrawnThisTurn = true
      · rw [if_pos hd]
      · rw [if_neg hd]
        dsimp only
        have hp : (!fd && !s.discardPile.isEmpty) = false := by
          rcases hor with h | h
          · rw [h]; simp
          · rw [h]; simp
        rw [hp]
        rw [if_neg (by decide)]
        have hde : (!s.deck.isEmpty) = false := by rw [hdeck]; simp
        rw [hde]
        rw [if_neg (by decide)]
  · intro mi c hlast hcf
    unfold step handlePlayerAction
    rw [if_neg (by simp)]
    by_cases hguard : (s.currentPlayerIndex == 0 && !s.firstPlayerHasPlayed
        && isDrawAction (Action.draw false mi)) = true
    · rw [if_pos hguard]
    · rw [if_neg hguard]
      dsimp only
      unfold handleDraw
      by_cases hd : s.hasDrawnThisTurn = true
      · rw [if_pos hd]
      · rw [if_neg hd]
        dsimp only
        have hpe : s.discardPile.isEmpty = false := by
          cases hpile : s.discardPile with
          | nil => rw [hpile] at hlast; exact Option.noConfusion hlast
          | cons x xs => rfl
        rw [hpe]
        rw [if_pos (by decide)]
        rw [hlast]
        dsimp only
        rw [if_pos (by rw [hcf]; decide)]
  · intro idxs hv
    unfold step handlePlayerAction
    rw [if_neg (by simp)]
    rw [if_neg (by simp [isDrawAction])]
    dsimp only
    unfold handleMeld
    rw [if_pos (by rw [hv]; decide)]
  · intro t m idxs tp base htp hbase hv
    unfold step handlePlayerAction
    rw [if_neg (by simp)]
    rw [if_neg (by simp [isDrawAction])]
    dsimp only
    unfold handleSapaw
    rw [htp]
    dsimp only
    rw [hbase]
    dsimp only
    rw [if_pos (by rw [hv]; decide)]
  · intro h0 hne i
    unfold step handlePlayerAction
    rw [if_neg (by simp)]
    rw [if_neg (by simp [isDrawAction])]
    dsimp only
    have hg : (!s.hasDrawnThisTurn && s.currentPlayerIndex != 0) = true := by
      rw [h0]; simp [hne]
    unfold handleDiscard
    rw [if_pos hg]
    rw [if_neg (by simp [hne])]

set_option maxRecDepth 100000 in
/-- Witness for C2 at a concrete session. -/
theorem C2_noops_witness :
    step oobDiscardState 0 Action.callDraw = oobDiscardState ∧
    step oobDiscardState oobDiscardState.currentPlayerIndex (Action.meld [0])
      = oobDiscardState :=
  ⟨(C2_noops oobDiscardState).1 0 Action.callDraw (by decide),
   (C2_noops oobDiscardState).2.2.2.2.2.1 [0] (by decide)⟩


theorem threeO (c0 : Card) (rest : List Card) :
    isThreeOfAKind ((c0 :: rest).map some) = true ↔
      (c0 :: rest).length = 3 ∧ ∀ c ∈ c0 :: rest, c.rank = c0.rank := by
  unfold isThreeOfAKind
  simp [List.all_map, sameRankAsHead, Function.comp, beq_iff_eq, and_comm]

theorem fourO (c0 : Card) (rest : List Card) :
    isFourOfAKind ((c0 :: rest).map some) = true ↔
      (c0 :: rest).length = 4 ∧ ∀ c ∈ c0 :: rest, c.rank = c0.rank := by
  unfold isFourOfAKind
  simp [List.all_map, sameRankAsHead, Function.comp, beq_iff_eq, and_comm]

theorem consecutive_iff (c : Card) (l : List Card) :
    consecutiveRanks (c :: l) = true ↔
      (c :: l).map (fun x => rankToNumber x.rank)
        = List.range' (rankToNumber c.rank) (l.length + 1) := by
  induction l generalizing c with
  | nil => simp [consecutiveRanks, List.range']
  | cons b rest ih =>
    show (rankToNumber b.rank == rankToNumber c.rank + 1
        && consecutiveRanks (b :: rest)) = true ↔ _
    rw [Bool.and_eq_true, beq_iff_eq, ih b]
    show _ ↔ rankToNumber c.rank :: (b :: rest).map (fun x => rankToNumber x.rank)
      = rankToNumber c.rank :: List.range' (rankToNumber c.rank + 1) (rest.length + 1)
    rw [List.cons_eq_cons]
    constructor
    · rintro ⟨h1, h2⟩
      rw [← h1]
      exact ⟨rfl, h2⟩
    · rintro ⟨-, h2⟩
      have h1 : rankToNumber b.rank = rankToNumber c.rank + 1 := by
        have := congrArg (fun t => t.headD 0) h2
        simpa [List.range'] using this
      exact ⟨h1, by rw [h1]; exact h2⟩

theorem straightFlushO (cards : List Card) (h3 : 3 ≤ cards.length) :
    isStraightFlush (cards.map some) = true ↔
      (∀ c ∈ cards, ∀ d ∈ cards, c.suit = d.suit) ∧
      ∃ a, Multiset.ofList (cards.map fun c => rankToNumber c.rank)
        = Multiset.ofList (List.range' a cards.length) := by
  unfold isStraightFlush
  rw [if_neg (by simp [List.all_map]; omega)]
  have hfm : ((cards.map some).filterMap id) = cards := by
    simp [List.filterMap_map]
  rw [hfm]
  have hperm : List.Perm (cards.insertionSort rankLe) cards := List.perm_insertionSort _ _
  have hsorted : List.Sorted rankLe (cards.insertionSort rankLe) :=
    List.sorted_insertionSort _ _
  have hlen : (cards.insertionSort rankLe).length = cards.length := hperm.length_eq
  cases hS : cards.insertionSort rankLe with
  | nil => rw [hS] at hlen; simp at hlen; omega
  | cons c0 S =>
    rw [hS] at hperm hsorted hlen
    dsimp only
    rw [List.head?_cons]
    rw [Bool.and_eq_true]
    constructor
    · rintro ⟨hsuit, hcons⟩
      simp only [List.all_cons, List.all_eq_true, Bool.and_eq_true, beq_iff_eq] at hsuit
      constructor
      · intro c hc d hd
        rw [← hperm.mem_iff] at hc hd
        have hcs : c.suit = c0.suit := by
          rcases List.mem_cons.mp hc with h | h
          · rw [h]
          · exact hsuit.2 c h
        have hds : d.suit = c0.suit := by
          rcases List.mem_cons.mp hd with h | h
          · rw [h]
          · exact hsuit.2 d h
        rw [hcs, hds]
      · refine ⟨rankToNumber c0.rank, ?_⟩
        have hmap := (consecutive_iff c0 S).mp hcons
        have hpm : List.Perm (cards.map (fun x => rankToNumber x.rank))
            ((c0 :: S).map (fun x => rankToNumber x.rank)) :=
          (hperm.map _).symm
        rw [Multiset.coe_eq_coe.mpr hpm, hmap, ← hlen, List.length_cons]
    · rintro ⟨hsuit, a, hms⟩
      have hc0 : c0 ∈ cards := hperm.mem_iff.mp (List.mem_cons_self c0 S)
      constructor
      · simp only [List.all_cons, List.all_eq_true, Bool.and_eq_true, beq_iff_eq]
        refine ⟨trivial, ?_⟩
        intro c hc
        exact hsuit c (hperm.mem_iff.mp (List.mem_cons_of_mem c0 hc)) c0 hc0
      · have hpm : List.Perm ((c0 :: S).map (fun x => rankToNumber x.rank))
            (List.range' a cards.length) := by
          refine ((hperm.map _).trans ?_)
          exact Multiset.coe_eq_coe.mp hms
        have hs1 : List.Sorted (· ≤ ·) ((c0 :: S).map fun x => rankToNumber x.rank) := by
          rw [List.Sorted, List.pairwise_map]
          exact hsorted
        have hs2 : List.Sorted (· ≤ ·) (List.range' a cards.length) :=
          List.Pairwise.imp Nat.le_of_lt (List.pairwise_lt_range' _ _)
        have heq := List.eq_of_perm_of_sorted hpm hs1 hs2
        have hlen1 : cards.length = S.length + 1 := by rw [List.length_cons] at hlen; omega
        rw [hlen1] at heq
        have ha : rankToNumber c0.rank = a := by
          have := congrArg (fun t => t.headD 0) heq
          simpa [List.range'] using this
        rw [(consecutive_iff c0 S), heq, ha]
  
theorem specSet_iff (cards : List Card) :
    (isThreeOfAKind (cards.map some) || isFourOfAKind (cards.map some)) = true
      ↔ SpecSet cards := by
  cases cards with
  | nil =>
    constructor
    · intro h
      rw [Bool.or_eq_true] at h
      rcases h with h | h
      · exact absurd h (by decide)
      · exact absurd h (by decide)
    · rintro ⟨h, -⟩
      rcases h with h | h <;> simp at h
  | cons c0 rest =>
    rw [Bool.or_eq_true, threeO, fourO]
    unfold SpecSet
    constructor
    · rintro (⟨h3, hr⟩ | ⟨h4, hr⟩)
      · exact ⟨Or.inl h3, fun c hc d hd => (hr c hc).trans (hr d hd).symm⟩
      · exact ⟨Or.inr h4, fun c hc d hd => (hr c hc).trans (hr d hd).symm⟩
    · rintro ⟨hlen, hr⟩
      have hr0 : ∀ c ∈ c0 :: rest, c.rank = c0.rank :=
        fun c hc => hr c hc c0 (List.mem_cons_self c0 rest)
      rcases hlen with h | h
      · exact Or.inl ⟨h, hr0⟩
      · exact Or.inr ⟨h, hr0⟩

theorem straight_len (cards : List (Option Card))
    (h : isStraightFlush cards = true) : 3 ≤ cards.length := by
  by_contra hlt
  have hcond : (decide (cards.length < 3) || !cards.all fun x => x.isSome) = true := by
    rw [Bool.or_eq_true]
    exact Or.inl (decide_eq_true (by omega))
  unfold isStraightFlush at h
  rw [if_pos hcond] at h
  exact Bool.noConfusion h

theorem isValidMeld_iff (cards : List Card) :
    isValidMeld cards = true ↔ SpecSet cards ∨ SpecRun cards := by
  unfold isValidMeld isValidMeldO
  constructor
  · intro h
    simp only [Bool.or_eq_true] at h
    rcases h with (h | h) | h
    · exact Or.inl ((specSet_iff cards).mp (by rw [Bool.or_eq_true]; exact Or.inl h))
    · exact Or.inl ((specSet_iff cards).mp (by rw [Bool.or_eq_true]; exact Or.inr h))
    · have h3 : 3 ≤ cards.length := by
        have := straight_len _ h
        simpa using this
      have hsp := (straightFlushO cards h3).mp h
      exact Or.inr ⟨h3, hsp.1, hsp.2⟩
  · intro h
    simp only [Bool.or_eq_true]
    rcases h with h | ⟨h3, hsuit, hrun⟩
    · have hb := (specSet_iff cards).mpr h
      rw [Bool.or_eq_true] at hb
      rcases hb with h' | h'
      · exact Or.inl (Or.inl h')
      · exact Or.inl (Or.inr h')
    · exact Or.inr ((straightFlushO cards h3).mpr ⟨hsuit, hrun⟩)

theorem isValidMeld_short (cards : List Card) (h : cards.length < 3) :
    isValidMeld cards = false := by
  cases hv : isValidMeld cards
  · rfl
  · exfalso
    rcases (isValidMeld_iff cards).mp hv with hs | hr
    · rcases hs.1 with h3 | h4 <;> omega
    · have := hr.1
      omega

/-- Claim C3: isValidMeld holds exactly for a set (3 or 4 cards of one rank)
or a run (at least 3 cards of one suit whose rank numbers form a block of
consecutive values, A low, no wraparound); fewer than 3 cards never
validate; and the five example melds decide as the spec says. -/
theorem C3_meld_validity :
    (∀ cards : List Card, isValidMeld cards = true ↔ SpecSet cards ∨ SpecRun cards) ∧
    (∀ cards : List Card, cards.length < 3 → isValidMeld cards = false) ∧
    isValidMeld [⟨Suit.spades, Rank.r9⟩, ⟨Suit.hearts, Rank.r9⟩,
      ⟨Suit.diamonds, Rank.r9⟩] = true ∧
    isValidMeld [⟨Suit.spades, Rank.r9⟩, ⟨Suit.hearts, Rank.r9⟩,
      ⟨Suit.diamonds, Rank.r9⟩, ⟨Suit.clubs, Rank.r9⟩] = true ∧
    isValidMeld [⟨Suit.clubs, Rank.r3⟩, ⟨Suit.clubs, Rank.r4⟩,
      ⟨Suit.clubs, Rank.r5⟩] = true ∧
    isValidMeld [⟨Suit.clubs, Rank.r3⟩, ⟨Suit.clubs, Rank.r5⟩,
      ⟨Suit.clubs, Rank.r7⟩] = false ∧
    isValidMeld [⟨Suit.spades, Rank.r9⟩, ⟨Suit.hearts, Rank.r9⟩,
      ⟨Suit.diamonds, Rank.r8⟩] = false :=
  ⟨isValidMeld_iff, isValidMeld_short, by decide, by decide, by decide,
   by decide, by decide⟩

/-- Witness for C3 at concrete melds. -/
theorem C3_meld_validity_witness :
    isValidMeld [⟨Suit.clubs, Rank.A⟩] = false ∧
    (SpecSet [⟨Suit.spades, Rank.r9⟩, ⟨Suit.hearts, Rank.r9⟩,
        ⟨Suit.diamonds, Rank.r9⟩]
      ∨ SpecRun [⟨Suit.spades, Rank.r9⟩, ⟨Suit.hearts, Rank.r9⟩,
        ⟨Suit.diamonds, Rank.r9⟩]) :=
  ⟨C3_meld_validity.2.1 [⟨Suit.clubs, Rank.A⟩] (by decide),
   (C3_meld_validity.1 _).mp (by decide)⟩


/-- The inner find of `canFormMeldWithCard`: a returned pair is an ordered
pair of entries of the searched list and completes a valid meld. -/
theorem firstMeldPair_some (card : Card) (l : List Card) (x y : Card)
    (h : firstMeldPair card l = some (x, y)) :
    List.Sublist [x, y] l ∧ isValidMeld [card, x, y] = true := by
  induction l with
  | nil => exact Option.noConfusion h
  | cons a rest ih =>
    unfold firstMeldPair at h
    cases hf : rest.find? (fun d => isValidMeld [card, a, d]) with
    | some d =>
      rw [hf] at h
      injection h with h
      injection h with h1 h2
      subst h1
      subst h2
      refine ⟨?_, by simpa using List.find?_some hf⟩
      exact List.Sublist.cons₂ _ (List.singleton_sublist.mpr (List.mem_of_find?_eq_some hf))
    | none =>
      rw [hf] at h
      obtain ⟨hsub, hval⟩ := ih h
      exact ⟨hsub.cons a, hval⟩

/-- When the double loop finds nothing, no ordered pair of entries of the
searched list completes a valid meld. -/
theorem firstMeldPair_none (card : Card) (l : List Card)
    (h : firstMeldPair card l = none) :
    ∀ x y, List.Sublist [x, y] l → isValidMeld [card, x, y] = false := by
  induction l with
  | nil =>
    intro x y hsub
    have := hsub.length_le
    simp at this
  | cons a rest ih =>
    unfold firstMeldPair at h
    cases hf : rest.find? (fun d => isValidMeld [card, a, d]) with
    | some d => rw [hf] at h; exact Option.noConfusion h
    | none =>
      rw [hf] at h
      intro x y hsub
      cases hsub with
      | cons _ h2 => exact ih h x y h2
      | cons₂ _ h2 =>
        have hy : y ∈ rest := List.singleton_sublist.mp h2
        have := List.find?_eq_none.mp hf y hy
        simpa using this

/-- The gate of the pile draw: `canMeld` holds exactly when some two hand
cards (in hand order) complete a valid meld with the candidate card. -/
theorem canFormMeld_iff (card : Card) (hand : List Card) :
    (canFormMeldWithCard card hand).1 = true ↔
      ∃ x y, List.Sublist [x, y] hand ∧ isValidMeld [card, x, y] = true := by
  unfold canFormMeldWithCard
  by_cases h2 : 2 ≤ (hand.filter fun c => c.rank == card.rank).length
  · rw [if_pos h2]
    refine iff_of_true rfl ?_
    cases hf : hand.filter fun c => c.rank == card.rank with
    | nil => rw [hf] at h2; simp at h2
    | cons x t =>
      cases t with
      | nil => rw [hf] at h2; simp at h2
      | cons y rest =>
        have hx : x ∈ hand.filter fun c => c.rank == card.rank := by
          rw [hf]; exact List.mem_cons_self _ _
        have hy : y ∈ hand.filter fun c => c.rank == card.rank := by
          rw [hf]; exact List.mem_cons_of_mem _ (List.mem_cons_self _ _)
        have hxr : x.rank = card.rank := by
          have := (List.mem_filter.mp hx).2
          simpa using this
        have hyr : y.rank = card.rank := by
          have := (List.mem_filter.mp hy).2
          simpa using this
        refine ⟨x, y, ?_, ?_⟩
        · have hsub : List.Sublist [x, y] (hand.filter fun c => c.rank == card.rank) := by
            rw [hf]
            exact List.Sublist.cons₂ _ (List.Sublist.cons₂ _ (List.nil_sublist rest))
          exact hsub.trans (List.filter_sublist hand)
        · refine (isValidMeld_iff _).mpr (Or.inl ⟨Or.inl rfl, ?_⟩)
          intro u hu v hv
          have hru : u.rank = card.rank := by
            rcases List.mem_cons.mp hu with h | h
            · rw [h]
            rcases List.mem_cons.mp h with h' | h'
            · rw [h', hxr]
            rcases List.mem_cons.mp h' with h'' | h''
            · rw [h'', hyr]
            · simp at h''
          have hrv : v.rank = card.rank := by
            rcases List.mem_cons.mp hv with h | h
            · rw [h]
            rcases List.mem_cons.mp h with h' | h'
            · rw [h', hxr]
            rcases List.mem_cons.mp h' with h'' | h''
            · rw [h'', hyr]
            · simp at h''
          rw [hru, hrv]
  · rw [if_neg h2]
    dsimp only
    cases hm : firstMeldPair card (hand.filter fun c => c.suit == card.suit) with
    | some p =>
      obtain ⟨x, y⟩ := p
      dsimp only
      refine iff_of_true rfl ?_
      obtain ⟨hsub, hval⟩ := firstMeldPair_some card _ x y hm
      exact ⟨x, y, hsub.trans (List.filter_sublist hand), hval⟩
    | none =>
      dsimp only
      refine iff_of_false (by simp) ?_
      rintro ⟨x, y, hsub, hval⟩
      rcases (isValidMeld_iff _).mp hval with hset | hrun
      · have hxr : x.rank = card.rank :=
          hset.2 x (by simp) card (by simp)
        have hyr : y.rank = card.rank :=
          hset.2 y (by simp) card (by simp)
        have hfs : List.Sublist [x, y] (hand.filter fun c => c.rank == card.rank) := by
          have := hsub.filter (fun c => c.rank == card.rank)
          simpa [List.filter, hxr, hyr] using this
        have hlen := hfs.length_le
        simp at hlen
        exact h2 hlen
      · have hxs : x.suit = card.suit :=
          hrun.2.1 x (by simp) card (by simp)
        have hys : y.suit = card.suit :=
          hrun.2.1 y (by simp) card (by simp)
        have hss : List.Sublist [x, y] (hand.filter fun c => c.suit == card.suit) := by
          have := hsub.filter (fun c => c.suit == card.suit)
          simpa [List.filter, hxs, hys] using this
        have hfalse := firstMeldPair_none card _ hm x y hss
        rw [hval] at hfalse
        exact Bool.noConfusion hfalse

/-- Claim C6: a draw is a no-op when the seat has already drawn, is refused
for seat 0 before its first discard of the round, and a pile draw is
permitted only when the top discard passes `canFormMeldWithCard`, which
answers whether two hand cards complete a valid meld with the candidate and
searches rank matches before same-suit runs; when supplied meldIndices are
non-empty and validate with the drawn card the meld is exposed immediately
(cards leave the hand) instead of the card joining the hand, otherwise the
drawn card joins the hand; every successful draw path sets
`hasDrawnThisTurn`. -/
theorem C6_draw (s : GameState) (fd : Bool) (mi : List Nat) (c : Card)
    (hcl : s.currentPlayerIndex < s.players.length) :
    (s.hasDrawnThisTurn = true → step s s.currentPlayerIndex (Action.draw fd mi) = s) ∧
    (s.currentPlayerIndex = 0 → s.firstPlayerHasPlayed = false →
      step s 0 (Action.draw fd mi) = s) ∧
    (s.hasDrawnThisTurn = false →
      s.discardPile.getLast? = some (some c) →
      (canFormMeldWithCard c (currentPlayer s).hand).1 = false →
      step s s.currentPlayerIndex (Action.draw false mi) = s) ∧
    ((canFormMeldWithCard c (currentPlayer s).hand).1 = true ↔
      ∃ x y, List.Sublist [x, y] (currentPlayer s).hand ∧
        isValidMeld [c, x, y] = true) ∧
    (2 ≤ ((currentPlayer s).hand.filter fun x => x.rank == c.rank).length →
      canFormMeldWithCard c (currentPlayer s).hand
        = (true, (((currentPlayer s).hand.enum.filter fun p =>
            p.2.rank == c.rank).map Prod.fst).take 2)) ∧
    (s.hasDrawnThisTurn = false →
      (s.currentPlayerIndex ≠ 0 ∨ s.firstPlayerHasPlayed = true) →
      s.discardPile.getLast? = some (some c) →
      (canFormMeldWithCard c (currentPlayer s).hand).1 = true →
      (!mi.isEmpty && isValidMeldO (pickCards (currentPlayer s).hand mi
        ++ [some c])) = true →
      (step s s.currentPlayerIndex (Action.draw false mi)).hasDrawnThisTurn = true ∧
      (step s s.currentPlayerIndex (Action.draw false mi)).discardPile
        = s.discardPile.dropLast ∧
      ((step s s.currentPlayerIndex (Action.draw false mi)).players.getD
          s.currentPlayerIndex default).hand
        = removeIndicesDesc (currentPlayer s).hand mi ∧
      ((step s s.currentPlayerIndex (Action.draw false mi)).players.getD
          s.currentPlayerIndex default).exposedMelds
        = (currentPlayer s).exposedMelds
          ++ [(pickCards (currentPlayer s).hand mi ++ [some c]).filterMap id]) ∧
    (s.hasDrawnThisTurn = false →
      (s.currentPlayerIndex ≠ 0 ∨ s.firstPlayerHasPlayed = true) →
      s.discardPile.getLast? = some (some c) →
      (canFormMeldWithCard c (currentPlayer s).hand).1 = true →
      (!mi.isEmpty && isValidMeldO (pickCards (currentPlayer s).hand mi
        ++ [some c])) = false →
      (step s s.currentPlayerIndex (Action.draw false mi)).hasDrawnThisTurn = true ∧
      (step s s.currentPlayerIndex (Action.draw false mi)).discardPile
        = s.discardPile.dropLast ∧
      ((step s s.currentPlayerIndex (Action.draw false mi)).players.getD
          s.currentPlayerIndex default).hand = (currentPlayer s).hand ++ [c]) ∧
    (s.hasDrawnThisTurn = false →
      (s.currentPlayerIndex ≠ 0 ∨ s.firstPlayerHasPlayed = true) →
      (fd = true ∨ s.discardPile = []) →
      s.deck.getLast? = some c →
      (step s s.currentPlayerIndex (Action.draw fd mi)).hasDrawnThisTurn = true ∧
      (step s s.currentPlayerIndex (Action.draw fd mi)).deck = s.deck.dropLast ∧
      ((step s s.currentPlayerIndex (Action.draw fd mi)).players.getD
          s.currentPlayerIndex default).hand = (currentPlayer s).hand ++ [c]) := by
  have hsets : ∀ q : Player,
      ((s.players.set s.currentPlayerIndex q).getD s.currentPlayerIndex default) = q :=
    fun q => by
      rw [List.getD_eq_getElem _ _ (by simpa using hcl), List.getElem_set_self]
  refine ⟨?_, ?_, ?_, canFormMeld_iff c (currentPlayer s).hand, ?_, ?_, ?_, ?_⟩
  · intro hd
    unfold step handlePlayerAction
    rw [if_neg (by simp)]
    by_cases hguard : (s.currentPlayerIndex == 0 && !s.firstPlayerHasPlayed
        && isDrawAction (Action.draw fd mi)) = true
    · rw [if_pos hguard]
    · rw [if_neg hguard]
      dsimp only
      unfold handleDraw
      rw [if_pos hd]
  · intro hc hf
    unfold step
    rw [if_neg (by simp [hc])]
    unfold handlePlayerAction
    rw [if_pos (by simp [hf, isDrawAction])]
  · intro hd hlast hcf
    unfold step handlePlayerAction
    rw [if_neg (by simp)]
    by_cases hguard : (s.currentPlayerIndex == 0 && !s.firstPlayerHasPlayed
        && isDrawAction (Action.draw false mi)) = true
    · rw [if_pos hguard]
    · rw [if_neg hguard]
      dsimp only
      unfold handleDraw
      rw [if_neg (by simp [hd])]
      dsimp only
      have hpe : s.discardPile.isEmpty = false := by
        cases hpile : s.discardPile with
        | nil => rw [hpile] at hlast; exact Option.noConfusion hlast
        | cons x xs => rfl
      rw [hpe]
      rw [if_pos (by decide)]
      rw [hlast]
      dsimp only
      rw [if_pos (by rw [hcf]; decide)]
  · intro h2
    unfold canFormMeldWithCard
    rw [if_pos h2]
  · intro hd hg hlast hcan hv
    have hgd : (s.currentPlayerIndex == 0 && !s.firstPlayerHasPlayed
        && isDrawAction (Action.draw false mi)) = false := by
      rcases hg with h | h <;> simp [h, isDrawAction]
    unfold step handlePlayerAction
    rw [if_neg (by simp)]
    rw [if_neg (by rw [hgd]; decide)]
    dsimp only
    unfold handleDraw
    rw [if_neg (by simp [hd])]
    dsimp only
    have hpe : s.discardPile.isEmpty = false := by
      cases hpile : s.discardPile with
      | nil => rw [hpile] at hlast; exact Option.noConfusion hlast
      | cons x xs => rfl
    rw [hpe]
    rw [if_pos (by decide)]
    rw [hlast]
    dsimp only
    rw [if_neg (by rw [hcan]; decide)]
    rw [if_pos hv]
    dsimp only
    rw [hsets]
    exact ⟨rfl, rfl, rfl, rfl⟩
  · intro hd hg hlast hcan hv
    have hgd : (s.currentPlayerIndex == 0 && !s.firstPlayerHasPlayed
        && isDrawAction (Action.draw false mi)) = false := by
      rcases hg with h | h <;> simp [h, isDrawAction]
    unfold step handlePlayerAction
    rw [if_neg (by simp)]
    rw [if_neg (by rw [hgd]; decide)]
    dsimp only
    unfold handleDraw
    rw [if_neg (by simp [hd])]
    dsimp only
    have hpe : s.discardPile.isEmpty = false := by
      cases hpile : s.discardPile with
      | nil => rw [hpile] at hlast; exact Option.noConfusion hlast
      | cons x xs => rfl
    rw [hpe]
    rw [if_pos (by decide)]
    rw [hlast]
    dsimp only
    rw [if_neg (by rw [hcan]; decide)]
    rw [if_neg (by rw [hv]; decide)]
    dsimp only
    rw [hsets]
    exact ⟨rfl, rfl, rfl⟩
  · intro hd hg hor hdl
    have hgd : (s.currentPlayerIndex == 0 && !s.firstPlayerHasPlayed
        && isDrawAction (Action.draw fd mi)) = false := by
      rcases hg with h | h <;> simp [h, isDrawAction]
    unfold step handlePlayerAction
    rw [if_neg (by simp)]
    rw [if_neg (by rw [hgd]; decide)]
    dsimp only
    unfold handleDraw
    rw [if_neg (by simp [hd])]
    dsimp only
    have hp : (!fd && !s.discardPile.isEmpty) = false := by
      rcases hor with h | h
      · rw [h]; simp
      · rw [h]; simp
    rw [hp]
    rw [if_neg (by decide)]
    have hde : s.deck.isEmpty = false := by
      cases hdk : s.deck with
      | nil => rw [hdk] at hdl; exact Option.noConfusion hdl
      | cons x xs => rfl
    rw [hde]
    rw [if_pos (by decide)]
    rw [hdl]
    dsimp only
    rw [hsets]
    exact ⟨rfl, rfl, rfl⟩

set_option maxRecDepth 100000 in
/-- Witness for C6 at a concrete session. -/
theorem C6_draw_witness :
    (step drawWitState drawWitState.currentPlayerIndex
        (Action.draw false [0, 1])).hasDrawnThisTurn = true ∧
    ((step drawWitState drawWitState.currentPlayerIndex
        (Action.draw false [0, 1])).players.getD 1 default).exposedMelds
      = (currentPlayer drawWitState).exposedMelds
        ++ [(pickCards (currentPlayer drawWitState).hand [0, 1]
            ++ [some (⟨Suit.diamonds, Rank.r9⟩ : Card)]).filterMap id] :=
  ⟨((C6_draw drawWitState false [0, 1] (⟨Suit.diamonds, Rank.r9⟩ : Card) (by decide)).2.2.2.2.2.1
      (by decide) (by decide) (by decide) (by decide) (by decide)).1,
   ((C6_draw drawWitState false [0, 1] (⟨Suit.diamonds, Rank.r9⟩ : Card) (by decide)).2.2.2.2.2.1
      (by decide) (by decide) (by decide) (by decide) (by decide)).2.2.2⟩

end Tongits
